import Mathlib

/-!
Verification development for the hush encrypted chat relay backend.

The definitions below are a shallow embedding of the Python source under
`backend/app`: the in-memory WebSocket connection registry
(`services/websocket.py`), the relay protocol handlers
(`routers/websocket.py`), the seen-based message-expiry worker
(`services/message_expiry.py`), the group membership endpoints
(`routers/groups.py`) and the authentication defense engine
(`services/defense.py` together with the failure path of
`routers/auth.py::verify_vault`).

Modelling conventions:
  * UUIDs and socket handles are modelled as `Nat`; timestamps as `Int`
    (seconds); SQL `NULL`-able columns as `Option`.
  * Python dicts are modelled as association lists (`aget` / `aset` /
    `adel` below give exactly the map semantics of dict indexing,
    assignment and `pop`); Python sets over ids as duplicate-free
    `List Nat` with `setAdd` / `List.erase`.
  * `async` functions are modelled as pure state transformers; outbound
    socket traffic is modelled as a list of `Event` values (a
    `send_personal`, `broadcast_to_conversation` or `send_to_user`
    intent), and socket sends are modelled as succeeding.
-/

set_option autoImplicit false

namespace Hush

/-- Map-style lookup in an association list (Python `d.get(k)`). -/
def aget {α : Type} : List (Nat × α) → Nat → Option α
  | [], _ => none
  | (k, v) :: rest, key => if k = key then some v else aget rest key

/-- Map-style removal (Python `d.pop(k, None)` / `del d[k]`). -/
def adel {α : Type} : List (Nat × α) → Nat → List (Nat × α)
  | [], _ => []
  | (k', v) :: rest, k => if k' = k then adel rest k else (k', v) :: adel rest k

/-- Map-style assignment (Python `d[k] = v`). -/
def aset {α : Type} (l : List (Nat × α)) (k : Nat) (v : α) : List (Nat × α) :=
  (k, v) :: adel l k

/-- Python `set.add` (and SQL `INSERT ... ON CONFLICT DO NOTHING` into a
keyless row set) on a duplicate-free list. -/
def setAdd {α : Type} [DecidableEq α] (l : List α) (x : α) : List α :=
  if x ∈ l then l else x :: l

/-- SQL `COALESCE(a, b)`. -/
def coalesce {α : Type} : Option α → Option α → Option α
  | some a, _ => some a
  | none, b => b

/-! ## WebSocket connection registry (`services/websocket.py`) -/

/-- Model of `Connection` (services/websocket.py lines 17-24).
`connected_at` / `last_activity` wall-clock metadata is not used by any
claim and is omitted. The authenticated user id is stored on the socket
state by the router (routers/websocket.py line 74) and modelled here as a
field of the connection record. -/
structure Connection where
  user_id : Nat
  subscribed_conversations : List Nat
  message_timestamps : List Int
  deriving DecidableEq

/-- Model of `WebSocketManager` state: `_connections` is the dict from
socket handle to `Connection`; `_conversation_subscriptions` is the dict
from conversation id to the subscriber set (absent key = no entry). -/
structure WebSocketManager where
  connections : List (Nat × Connection)
  conversation_subscriptions : Nat → Option (List Nat)

namespace WebSocketManager

/-- `WebSocketManager.__init__`. -/
def init : WebSocketManager :=
  { connections := [], conversation_subscriptions := fun _ => none }

/-- `WebSocketManager.connect` (lines 46-54): register a fresh connection
record under the socket handle. -/
def connect (m : WebSocketManager) (ws uid : Nat) : WebSocketManager :=
  { m with connections := aset m.connections ws ⟨uid, [], []⟩ }

/-- `WebSocketManager.disconnect` (lines 56-68): pop the connection and,
for every conversation in its subscribed set, discard the socket from the
subscriber set, deleting sets that become empty. -/
def disconnect (m : WebSocketManager) (ws : Nat) : WebSocketManager :=
  match aget m.connections ws with
  | none => m
  | some c =>
      { connections := adel m.connections ws
        conversation_subscriptions := fun cid =>
          if cid ∈ c.subscribed_conversations then
            match m.conversation_subscriptions cid with
            | none => none
            | some l =>
                let l' := l.erase ws
                if l' = [] then none else some l'
          else m.conversation_subscriptions cid }

/-- `WebSocketManager.subscribe_to_conversation` (lines 70-82). -/
def subscribe_to_conversation (m : WebSocketManager) (ws cid : Nat) :
    WebSocketManager :=
  match aget m.connections ws with
  | none => m
  | some c =>
      { connections := aset m.connections ws
          { c with subscribed_conversations := setAdd c.subscribed_conversations cid }
        conversation_subscriptions := fun x =>
          if x = cid then some (setAdd ((m.conversation_subscriptions cid).getD []) ws)
          else m.conversation_subscriptions x }

/-- `WebSocketManager.unsubscribe_from_conversation` (lines 84-97). -/
def unsubscribe_from_conversation (m : WebSocketManager) (ws cid : Nat) :
    WebSocketManager :=
  match aget m.connections ws with
  | none => m
  | some c =>
      { connections := aset m.connections ws
          { c with subscribed_conversations := c.subscribed_conversations.erase cid }
        conversation_subscriptions := fun x =>
          if x = cid then
            match m.conversation_subscriptions cid with
            | none => none
            | some l =>
                let l' := l.erase ws
                if l' = [] then none else some l'
          else m.conversation_subscriptions x }

/-- `WebSocketManager.is_subscribed_to_conversation` (lines 135-141). -/
def is_subscribed_to_conversation (m : WebSocketManager) (ws cid : Nat) : Bool :=
  match aget m.connections ws with
  | none => false
  | some c => cid ∈ c.subscribed_conversations

/-- `WebSocketManager.get_subscription_count` (lines 143-149). -/
def get_subscription_count (m : WebSocketManager) (ws : Nat) : Nat :=
  match aget m.connections ws with
  | none => 0
  | some c => c.subscribed_conversations.length

/-- `WebSocketManager.allow_incoming_message` (lines 151-179): the
sliding-window rate guard. Evicts timestamps older than the window from
the front of the deque, denies if the kept queue is at the cap, otherwise
records `now` and allows. -/
def allow_incoming_message (m : WebSocketManager) (ws : Nat)
    (max_messages : Nat) (window_seconds now : Int) :
    Bool × WebSocketManager :=
  let cutoff := now - window_seconds
  match aget m.connections ws with
  | none => (false, m)
  | some c =>
      let kept := c.message_timestamps.dropWhile (fun t => decide (t < cutoff))
      if max_messages ≤ kept.length then
        let c' : Connection := { c with message_timestamps := kept }
        (false, { m with connections := aset m.connections ws c' })
      else
        let c' : Connection := { c with message_timestamps := kept ++ [now] }
        (true, { m with connections := aset m.connections ws c' })

/-- `WebSocketManager.broadcast_to_conversation` (lines 99-118): the
subscriber snapshot a broadcast is fanned out to. -/
def broadcast_recipients (m : WebSocketManager) (cid : Nat) : List Nat :=
  (m.conversation_subscriptions cid).getD []

/-- Modelled from the spec: `WebSocketManager.send_to_user` is called from
routers/websocket.py, routers/groups.py, routers/messages.py and
services/message_expiry.py and is replaced by fakes in the tests, but its
definition is missing from services/websocket.py. Spec section 4.1:
"`SendToUser(userID, envelope)` delivers to all of that user's
currently-connected handles regardless of subscription state". -/
def send_to_user (m : WebSocketManager) (uid : Nat) : List Nat :=
  (m.connections.filter (fun p => decide (p.2.user_id = uid))).map Prod.fst

/-- Modelled from the spec: `subscribe_user_connections_to_conversation`
is called from routers/websocket.py and routers/groups.py but its
definition is missing from services/websocket.py. Spec sections 4.1 and
8.7: on first contact the system "subscribes both sockets", i.e. every
currently-connected socket of the given user is subscribed to the
conversation. -/
def subscribe_user_connections_to_conversation (m : WebSocketManager)
    (uid cid : Nat) : WebSocketManager :=
  let targets := (m.connections.filter (fun p => decide (p.2.user_id = uid))).map Prod.fst
  { connections := m.connections.map (fun p =>
      if p.2.user_id = uid then
        (p.1, { p.2 with subscribed_conversations := setAdd p.2.subscribed_conversations cid })
      else p)
    conversation_subscriptions := fun x =>
      if x = cid then
        some (targets.foldl setAdd ((m.conversation_subscriptions cid).getD []))
      else m.conversation_subscriptions x }

end WebSocketManager

/-! ## Wire frames and delivery events -/

/-- Server-to-client frames (routers/websocket.py; spec section 6). Only
the fields the claims talk about are carried. -/
inductive Frame where
  | errorFrame (code message : String) (client_message_id : Option Nat)
  | errorMsg (message : String)
  | subscribed (conversation_id : Nat)
  | unsubscribed (conversation_id : Nat)
  | userSubscribed (conversation_count : Nat)
  | message (id conversation_id sender_id : Nat) (client_message_id : Option Nat)
      (group_epoch : Option Int) (expires_after_seen_sec : Option Int)
      (ciphertext iv : List Nat) (created_at : Int)
  | messageSent (id conversation_id : Nat) (client_message_id : Nat) (created_at : Int)
  | messageSeen (message_id conversation_id seen_by : Nat) (seen_at : Int)
      (seen_count total_recipients : Nat) (all_recipients_seen : Bool)
      (sender_delete_after_seen_at : Option Int)
  | messageDeletedForUser (message_id conversation_id : Nat)
  | messageDeletedForSender (message_id conversation_id : Nat)
  | pong
  deriving DecidableEq

/-- An outbound delivery intent produced by a handler. -/
inductive Event where
  | personal (ws : Nat) (f : Frame)
  | broadcast (conversation_id : Nat) (f : Frame)
  | toUser (uid : Nat) (f : Frame)
  deriving DecidableEq

/-- Resolve a delivery intent against the registry: `personal` goes to the
one socket, `broadcast` to the conversation's subscriber snapshot,
`toUser` to every connected socket of the user (via `send_to_user`). -/
def deliver (m : WebSocketManager) : Event → List (Nat × Frame)
  | .personal ws f => [(ws, f)]
  | .broadcast cid f => (m.broadcast_recipients cid).map (fun ws => (ws, f))
  | .toUser uid f => (m.send_to_user uid).map (fun ws => (ws, f))

/-- Is this event a conversation broadcast? -/
def Event.isBroadcast : Event → Bool
  | .broadcast _ _ => true
  | _ => false

/-! ## Persistent state (schema of `database.py::_init_schema`) -/

/-- `conversations.kind`: `'direct'` (the column default) or `'group'`. -/
inductive ConvKind
  | direct
  | group
  deriving DecidableEq

/-- A `messages` row. -/
structure MessageRow where
  id : Nat
  conversation_id : Nat
  sender_id : Nat
  ciphertext : List Nat
  iv : List Nat
  group_epoch : Option Int
  expires_after_seen_sec : Option Int
  sender_delete_after_seen_at : Option Int
  sender_deleted_at : Option Int
  created_at : Int
  deriving DecidableEq

/-- A `message_user_state` row (primary key `(message_id, user_id)`). -/
structure MessageUserState where
  message_id : Nat
  user_id : Nat
  is_sender : Bool
  seen_at : Option Int
  delete_after_seen_at : Option Int
  deleted_at : Option Int
  deriving DecidableEq

/-- A `group_members` row (primary key `(group_id, user_id)`);
`joined_at` is not used by any claim and is omitted. -/
structure GroupMemberRow where
  group_id : Nat
  user_id : Nat
  role : String
  removed_at : Option Int
  deriving DecidableEq

/-- The database tables the claims touch. `conversations` maps id to
kind; `participants` is the set of `(conversation_id, user_id)` rows;
`groups` maps group id to `key_epoch`. `next_message_id` models the
generated message primary key. -/
structure DB where
  conversations : List (Nat × ConvKind)
  participants : List (Nat × Nat)
  groups : List (Nat × Int)
  group_members : List GroupMemberRow
  messages : List MessageRow
  message_user_state : List MessageUserState
  next_message_id : Nat
  deriving DecidableEq

/-! ## Boundary limits (`security_limits.py`) -/

def MAX_WS_SUBSCRIPTIONS_PER_CONNECTION : Nat := 500

def MAX_WS_MESSAGES_PER_WINDOW : Nat := 30

def WS_RATE_WINDOW_SECONDS : Int := 10

def MAX_MESSAGE_CIPHERTEXT_BYTES : Nat := 64 * 1024

def IV_BYTES : Nat := 12

/-! ## Relay protocol handlers (`routers/websocket.py`) -/

/-- `handle_subscribe` (routers/websocket.py lines 128-181). UUID-format
validation is vacuous on `Nat`-modelled ids. The `require_conversation_participant`
check (services/authorization.py lines 24-39) is inlined. -/
def handle_subscribe (db : DB) (m : WebSocketManager) (ws uid cid : Nat) :
    WebSocketManager × List Event :=
  if m.is_subscribed_to_conversation ws cid = false ∧
      MAX_WS_SUBSCRIPTIONS_PER_CONNECTION ≤ m.get_subscription_count ws then
    (m, [.personal ws (.errorMsg "subscription_limit_reached")])
  else if (aget db.conversations cid).isNone then
    (m, [.personal ws (.errorMsg "Conversation not found")])
  else if (cid, uid) ∉ db.participants then
    (m, [.personal ws (.errorMsg "Forbidden: not a participant in this conversation")])
  else
    (m.subscribe_to_conversation ws cid, [.personal ws (.subscribed cid)])

/-- The subscription loop of `handle_subscribe_user` (routers/websocket.py
lines 626-635): subscribe to discovered conversations up to the remaining
budget, skipping ones already subscribed. Returns the manager and the
number of new subscriptions. -/
def subscribe_user_loop (ws : Nat) (slots : Int) :
    WebSocketManager → List Nat → Nat → WebSocketManager × Nat
  | m, [], n => (m, n)
  | m, cid :: rest, n =>
      if slots ≤ (n : Int) then (m, n)
      else if m.is_subscribed_to_conversation ws cid then
        subscribe_user_loop ws slots m rest n
      else
        subscribe_user_loop ws slots (m.subscribe_to_conversation ws cid) rest (n + 1)

/-- `handle_subscribe_user` (routers/websocket.py lines 600-656). -/
def handle_subscribe_user (db : DB) (m : WebSocketManager) (ws uid : Nat) :
    WebSocketManager × List Event :=
  let rows := (db.participants.filter (fun p => decide (p.2 = uid))).map Prod.fst
  let available : Int :=
    (MAX_WS_SUBSCRIPTIONS_PER_CONNECTION : Int) - (m.get_subscription_count ws : Int)
  if available ≤ 0 then (m, [.personal ws (.errorMsg "subscription_limit_reached")])
  else
    let res := subscribe_user_loop ws available m rows 0
    let evs := [Event.personal ws (.userSubscribed res.2)]
    let evs := if res.2 < rows.length then
        evs ++ [.personal ws (.errorMsg "subscription_limit_reached")]
      else evs
    (res.1, evs)

/-- The client `message` frame after JSON field extraction
(routers/websocket.py lines 206-212): `none` models an absent/falsy field;
`ciphertext` / `iv` carry the bytes the base64 field decodes to. -/
structure MessageFrameIn where
  conversation_id : Option Nat
  recipient_id : Option Nat
  client_message_id : Option Nat
  group_epoch : Option Int
  expires_after_seen_sec : Option Int
  ciphertext : Option (List Nat)
  iv : Option (List Nat)
  deriving DecidableEq

/-- `build_error` inside `handle_message` (lines 214-222). -/
def build_error (code message : String) (cmid : Option Nat) : Frame :=
  .errorFrame code message cmid

/-- First-contact auto-create transaction in `handle_message` (lines
306-320): insert the conversation (`ON CONFLICT DO NOTHING`, kind takes
the column default `'direct'`) and the participant rows for sender and
recipient. -/
def auto_create_conversation (db : DB) (cid uid rid : Nat) : DB :=
  let convs := if (aget db.conversations cid).isSome then db.conversations
    else aset db.conversations cid .direct
  { db with
    conversations := convs,
    participants := setAdd (setAdd db.participants (cid, uid)) (cid, rid) }

/-- Group-epoch validation in `handle_message` (lines 322-348): for a
group conversation, a missing group row or a client epoch different from
the current one yields `none` (rejection); otherwise the result carries
the epoch the message is stamped with (the current epoch when the client
omitted one). Non-group conversations pass the client value through. -/
def group_epoch_check (db : DB) (cid : Nat) (client_epoch : Option Int) :
    Option (Option Int) :=
  if aget db.conversations cid = some .group then
    match aget db.groups cid with
    | none => none
    | some current =>
        match client_epoch with
        | none => some (some current)
        | some g => if current = g then some (some g) else none
  else some client_epoch

/-- `handle_message` (routers/websocket.py lines 199-428), composed with
`decode_base64_field` (utils/payload_validation.py) for the payload size
caps and with the inlined participant / auto-create / group-epoch logic.
Returns the updated database, the updated registry and the outbound
events in order. -/
def handle_message (db : DB) (m : WebSocketManager) (ws uid : Nat)
    (fr : MessageFrameIn) (now : Int) : DB × WebSocketManager × List Event :=
  match fr.conversation_id, fr.ciphertext, fr.iv with
  | some cid, some cbytes, some ivbytes =>
      -- group_epoch normalization (lines 235-244)
      let epochBad : Bool := match fr.group_epoch with
        | some g => decide (g < 1)
        | none => false
      let expiresBad : Bool := match fr.expires_after_seen_sec with
        | some e => decide (e ≠ 15 ∧ e ≠ 30 ∧ e ≠ 60)
        | none => false
      if epochBad then
        (db, m, [.personal ws (build_error "invalid_group_epoch" "Invalid group_epoch" fr.client_message_id)])
      else if expiresBad then
        (db, m, [.personal ws (build_error "invalid_expires_after_seen" "Invalid expires_after_seen_sec" fr.client_message_id)])
      else
        -- per-connection rate guard (lines 257-264)
        let rg := m.allow_incoming_message ws MAX_WS_MESSAGES_PER_WINDOW WS_RATE_WINDOW_SECONDS now
        let m1 := rg.2
        if rg.1 = false then
          (db, m1, [.personal ws (build_error "rate_limited" "rate_limited" fr.client_message_id)])
        else if MAX_MESSAGE_CIPHERTEXT_BYTES < cbytes.length then
          (db, m1, [.personal ws (build_error "invalid_payload" "ciphertext exceeds maximum size" fr.client_message_id)])
        else if ivbytes.length ≠ IV_BYTES then
          (db, m1, [.personal ws (build_error "invalid_payload" "iv must decode to exactly 12 bytes" fr.client_message_id)])
        else
          -- persistence block (lines 300-385)
          let isPart := (cid, uid) ∈ db.participants
          if ¬ isPart ∧ fr.recipient_id = none then
            if (aget db.conversations cid).isNone then
              (db, m1, [.personal ws (build_error "conversation_not_found" "Conversation not found" fr.client_message_id)])
            else
              (db, m1, [.personal ws (build_error "forbidden" "Forbidden: not a participant in this conversation" fr.client_message_id)])
          else
            -- first-contact auto-create (lines 306-320)
            let db1 : DB :=
              if isPart then db
              else fr.recipient_id.elim db (fun rid => auto_create_conversation db cid uid rid)
            -- the auto-create transaction commits before the epoch check,
            -- so error returns below keep `db1`, not `db`
            match group_epoch_check db1 cid fr.group_epoch with
            | none =>
                if (aget db1.groups cid).isNone then
                  (db1, m1, [.personal ws (build_error "group_not_found" "Group not found" fr.client_message_id)])
                else
                  (db1, m1, [.personal ws (build_error "stale_group_epoch" "stale_group_epoch" fr.client_message_id)])
            | some msgEpoch =>
                -- message insert + per-participant state rows (lines 350-375)
                let mid := db1.next_message_id
                let msg : MessageRow :=
                  { id := mid, conversation_id := cid, sender_id := uid,
                    ciphertext := cbytes, iv := ivbytes, group_epoch := msgEpoch,
                    expires_after_seen_sec := fr.expires_after_seen_sec,
                    sender_delete_after_seen_at := none, sender_deleted_at := none,
                    created_at := now }
                let partUsers :=
                  ((db1.participants.filter (fun p => decide (p.1 = cid))).map Prod.snd).dedup
                let musNew := partUsers.map (fun u =>
                  ({ message_id := mid, user_id := u, is_sender := decide (u = uid),
                     seen_at := none, delete_after_seen_at := none, deleted_at := none } : MessageUserState))
                let db2 := { db1 with
                  messages := db1.messages ++ [msg],
                  message_user_state := db1.message_user_state ++ musNew,
                  next_message_id := mid + 1 }
                -- first-contact socket auto-subscription (lines 387-396)
                let m2 := m1.subscribe_user_connections_to_conversation uid cid
                let m3 := fr.recipient_id.elim m2
                  (fun rid => m2.subscribe_user_connections_to_conversation rid cid)
                -- broadcast + explicit sender ack (lines 398-424)
                let bmsg : Frame := .message mid cid uid fr.client_message_id msgEpoch
                  fr.expires_after_seen_sec cbytes ivbytes now
                let evs := fr.client_message_id.elim [Event.broadcast cid bmsg]
                  (fun cmid => [Event.broadcast cid bmsg,
                    .personal ws (.messageSent mid cid cmid now)])
                (db2, m3, evs)
  | _, _, _ =>
      (db, m, [.personal ws (build_error "invalid_request"
        "Missing required fields: conversation_id, ciphertext, iv" fr.client_message_id)])

/-! ## Seen processing (`routers/websocket.py::handle_message_seen`) -/

/-- The `UPDATE message_user_state SET seen_at = COALESCE(seen_at, NOW())
WHERE message_id = $1 AND user_id = $2 AND is_sender = FALSE` row
transformer (lines 475-486). -/
def mark_seen_row (mid uid : Nat) (now : Int) (r : MessageUserState) : MessageUserState :=
  if r.message_id = mid ∧ r.user_id = uid ∧ r.is_sender = false then
    { r with seen_at := coalesce r.seen_at (some now) }
  else r

/-- The `UPDATE message_user_state SET delete_after_seen_at =
COALESCE(delete_after_seen_at, seen_at + ttl) WHERE message_id = $1 AND
user_id = $2` row transformer (lines 493-504). -/
def set_delete_after_row (mid uid : Nat) (ttl : Int) (r : MessageUserState) : MessageUserState :=
  if r.message_id = mid ∧ r.user_id = uid then
    { r with delete_after_seen_at :=
        coalesce r.delete_after_seen_at (r.seen_at.map (fun s => s + ttl)) }
  else r

/-- `NOT EXISTS (... is_sender = FALSE AND seen_at IS NULL)` for a
message (lines 506-517). -/
def all_recipients_seen (mus : List MessageUserState) (mid : Nat) : Prop :=
  ¬ ∃ r ∈ mus, r.message_id = mid ∧ r.is_sender = false ∧ r.seen_at = none

instance (mus : List MessageUserState) (mid : Nat) :
    Decidable (all_recipients_seen mus mid) := by
  unfold all_recipients_seen; infer_instance

/-- `MAX(seen_at)` over the non-sender state rows of a message (lines
519-535); SQL `MAX` ignores `NULL`s and is `NULL` on an empty set. -/
def max_recipient_seen_at (mus : List MessageUserState) (mid : Nat) : Option Int :=
  ((mus.filter (fun r => decide (r.message_id = mid ∧ r.is_sender = false))).filterMap
    (fun r => r.seen_at)).max?

/-- The `UPDATE messages SET sender_delete_after_seen_at = COALESCE(...)`
row transformer (lines 519-535). -/
def set_sender_delete_after (mid : Nat) (v : Option Int) (mr : MessageRow) : MessageRow :=
  if mr.id = mid then
    { mr with sender_delete_after_seen_at := coalesce mr.sender_delete_after_seen_at v }
  else mr

/-- The TTL step of `handle_message_seen` (lines 492-535): when the
message carries a (truthy) `expires_after_seen_sec`, set the actor's
deletion deadline, and once every recipient has seen the message set the
sender's deadline to `MAX(seen_at) + ttl`. Returns the updated
`message_user_state` and `messages` tables. -/
def seen_ttl_step (mus : List MessageUserState) (msgs : List MessageRow)
    (mid uid : Nat) (ttl : Option Int) :
    List MessageUserState × List MessageRow :=
  match ttl with
  | none => (mus, msgs)
  | some t =>
      if t = 0 then (mus, msgs)
      else
        let mus2 := mus.map (set_delete_after_row mid uid t)
        if all_recipients_seen mus2 mid then
          let v := (max_recipient_seen_at mus2 mid).map (fun s => s + t)
          (mus2, msgs.map (set_sender_delete_after mid v))
        else (mus2, msgs)

/-- `handle_message_seen` (routers/websocket.py lines 430-597). The
registry is read only through the emitted events, so the function returns
the updated database and the outbound events. -/
def handle_message_seen (db : DB) (ws uid : Nat)
    (message_id conversation_id : Option Nat) (now : Int) : DB × List Event :=
  match message_id, conversation_id with
  | some mid, some cid =>
      if (aget db.conversations cid).isNone then
        (db, [.personal ws (.errorFrame "forbidden" "Conversation not found" none)])
      else if (cid, uid) ∉ db.participants then
        (db, [.personal ws (.errorFrame "forbidden" "Forbidden: not a participant in this conversation" none)])
      else
        match db.messages.find? (fun r => decide (r.id = mid ∧ r.conversation_id = cid)) with
        | none => (db, [.personal ws (.errorFrame "message_not_found" "Message not found" none)])
        | some msgRow =>
            if msgRow.sender_id = uid then
              (db, [.personal ws (.errorFrame "invalid_seen_actor" "Sender cannot mark own message as seen" none)])
            else
              let mus1 := db.message_user_state.map (mark_seen_row mid uid now)
              match mus1.find? (fun r => decide (r.message_id = mid ∧ r.user_id = uid ∧ r.is_sender = false)) with
              | none => (db, [.personal ws (.errorFrame "message_state_missing" "Message state not found" none)])
              | some seenRow =>
                  let seen_at := seenRow.seen_at.getD now
                  let step := seen_ttl_step mus1 db.messages mid uid msgRow.expires_after_seen_sec
                  let mus2 := step.1
                  let msgs2 := step.2
                  -- aggregate (lines 537-557)
                  let nonSender := mus2.filter
                    (fun r => decide (r.message_id = mid ∧ r.is_sender = false))
                  let total_recipients := nonSender.length
                  let seen_count := (nonSender.filter (fun r => decide (r.seen_at ≠ none))).length
                  let allSeen := decide (all_recipients_seen mus2 mid)
                  let sdas := (msgs2.find? (fun mr => decide (mr.id = mid))).bind
                    (fun mr => mr.sender_delete_after_seen_at)
                  let db' := { db with message_user_state := mus2, messages := msgs2 }
                  let frame := Frame.messageSeen mid cid uid seen_at seen_count
                    total_recipients allSeen sdas
                  -- broadcast to subscribers, then a direct sender copy
                  (db', [.broadcast cid frame, .toUser msgRow.sender_id frame])
  | _, _ =>
      (db, [.personal ws (.errorFrame "invalid_request" "Missing required fields: message_id, conversation_id" none)])

/-! ## Expiry worker (`services/message_expiry.py`) -/

/-- A non-sender state row claimed by the recipient sweep (lines 16-31):
due, not yet deleted, and joined to an existing message row. -/
def recipient_due (msgs : List MessageRow) (now : Int) (r : MessageUserState) : Bool :=
  decide (r.is_sender = false ∧ r.deleted_at = none ∧
    (∃ d, r.delete_after_seen_at = some d ∧ d ≤ now) ∧
    ∃ mr ∈ msgs, mr.id = r.message_id)

/-- A message claimed by the sender sweep (lines 46-55). -/
def sender_due (now : Int) (mr : MessageRow) : Bool :=
  decide (mr.sender_deleted_at = none ∧
    ∃ d, mr.sender_delete_after_seen_at = some d ∧ d ≤ now)

/-- A sender state row updated by the sender sweep (lines 55-63). -/
def sender_state_due (dueMsgs : List MessageRow) (r : MessageUserState) : Bool :=
  decide (r.is_sender = true ∧ r.deleted_at = none ∧
    ∃ mr ∈ dueMsgs, mr.id = r.message_id)

/-- A message claimed by the hard delete (lines 81-92): sender copy
deleted and no participant state row still alive. -/
def hard_delete_due (mus : List MessageUserState) (mr : MessageRow) : Bool :=
  decide (mr.sender_deleted_at ≠ none ∧
    ¬ ∃ r ∈ mus, r.message_id = mr.id ∧ r.deleted_at = none)

/-- `process_due_message_expiry` (services/message_expiry.py lines
13-99): the recipient sweep, the sender sweep, and the hard delete (with
the `ON DELETE CASCADE` of `message_user_state` rows). Returns the
updated database and the `send_to_user` notification intents. -/
def process_due_message_expiry (db : DB) (now : Int) : DB × List Event :=
  -- recipient sweep
  let dueRec := db.message_user_state.filter (recipient_due db.messages now)
  let mus1 := db.message_user_state.map (fun r =>
    if recipient_due db.messages now r then { r with deleted_at := some now } else r)
  let evs1 := dueRec.filterMap (fun r =>
    (db.messages.find? (fun mr => decide (mr.id = r.message_id))).map (fun mr =>
      Event.toUser r.user_id (.messageDeletedForUser r.message_id mr.conversation_id)))
  -- sender sweep
  let dueMsgs := db.messages.filter (sender_due now)
  let msgs1 := db.messages.map (fun mr =>
    if sender_due now mr then { mr with sender_deleted_at := some now } else mr)
  let mus2 := mus1.map (fun r =>
    if sender_state_due dueMsgs r then { r with deleted_at := some now } else r)
  let evs2 := (mus1.filter (sender_state_due dueMsgs)).filterMap (fun r =>
    (dueMsgs.find? (fun mr => decide (mr.id = r.message_id))).map (fun mr =>
      Event.toUser mr.sender_id (.messageDeletedForSender mr.id mr.conversation_id)))
  -- hard delete + cascade
  let msgs2 := msgs1.filter (fun mr => !(hard_delete_due mus2 mr))
  let mus3 := mus2.filter (fun r =>
    !(decide (∃ mr ∈ msgs1, mr.id = r.message_id ∧ hard_delete_due mus2 mr = true)))
  ({ db with messages := msgs2, message_user_state := mus3 }, evs1 ++ evs2)

/-! ## Group membership operations (`routers/groups.py`) -/

/-- Count of active owners of a group (groups.py lines 168-177 / 284-291). -/
def owner_count (db : DB) (g : Nat) : Nat :=
  (db.group_members.filter (fun r =>
    decide (r.group_id = g ∧ r.role = "owner" ∧ r.removed_at = none))).length

/-- The active role of a user in a group (groups.py lines 155-165). -/
def active_role (db : DB) (g uid : Nat) : Option String :=
  (db.group_members.find? (fun r =>
    decide (r.group_id = g ∧ r.user_id = uid ∧ r.removed_at = none))).map
    (fun r => r.role)

/-- `INSERT INTO group_members ... ON CONFLICT (group_id, user_id) DO
UPDATE SET role = EXCLUDED.role, removed_at = NULL` (groups.py lines
195-205). -/
def upsert_group_member (l : List GroupMemberRow) (g uid : Nat) (role : String) :
    List GroupMemberRow :=
  if ∃ r ∈ l, r.group_id = g ∧ r.user_id = uid then
    l.map (fun r =>
      if r.group_id = g ∧ r.user_id = uid then { r with role := role, removed_at := none }
      else r)
  else l ++ [{ group_id := g, user_id := uid, role := role, removed_at := none }]

/-- `UPDATE groups SET key_epoch = key_epoch + 1 WHERE id = $1`
(groups.py lines 207-210 and 318-321). -/
def bump_epoch (l : List (Nat × Int)) (g : Nat) : List (Nat × Int) :=
  l.map (fun p => if p.1 = g then (p.1, p.2 + 1) else p)

/-- `add_group_member` (routers/groups.py lines 146-271): the
membership-changing transaction (participant insert, member upsert which
also covers role changes, and the epoch increment in the same
transaction). The admin authorization of the acting user is out-of-scope
glue; the group-existence check of `require_group_admin` and the
demote-last-owner guard (lines 167-182) reject with `none` and leave the
database unchanged. Key envelope storage is not used by any claim and is
omitted. -/
def add_group_member (db : DB) (g uid : Nat) (role : String) : Option DB :=
  if (aget db.groups g).isNone then none
  else if active_role db g uid = some "owner" ∧ role ≠ "owner" ∧ owner_count db g ≤ 1 then none
  else some { db with
    participants := setAdd db.participants (g, uid),
    group_members := upsert_group_member db.group_members g uid role,
    groups := bump_epoch db.groups g }

/-- `remove_group_member` (routers/groups.py lines 274-350): mark the
member removed, delete the participant row, and increment the epoch in
the same transaction; the remove-last-owner guard (lines 283-296)
rejects with `none`. -/
def remove_group_member (db : DB) (g actor member : Nat) (now : Int) : Option DB :=
  if (aget db.groups g).isNone then none
  else if member = actor ∧ owner_count db g ≤ 1 then none
  else some { db with
    group_members := db.group_members.map (fun r =>
      if r.group_id = g ∧ r.user_id = member ∧ r.removed_at = none then
        { r with removed_at := some now }
      else r),
    participants := db.participants.filter (fun p => decide (p ≠ (g, member))),
    groups := bump_epoch db.groups g }

/-- A membership-changing operation on a group: member add / role change
(both via `add_group_member`) or member removal. -/
inductive GroupOp where
  | addMember (uid : Nat) (role : String)
  | removeMember (actor member : Nat) (now : Int)
  deriving DecidableEq

def apply_group_op (db : DB) (g : Nat) : GroupOp → Option DB
  | .addMember uid role => add_group_member db g uid role
  | .removeMember actor member now => remove_group_member db g actor member now

/-- Run a sequence of membership operations; a rejected operation leaves
the database unchanged (the HTTP handler returns an error response). -/
def run_group_ops (g : Nat) : DB → List GroupOp → DB
  | db, [] => db
  | db, op :: rest => run_group_ops g ((apply_group_op db g op).getD db) rest

/-- All operations in the sequence pass their guards. -/
def group_ops_ok (g : Nat) : DB → List GroupOp → Bool
  | _, [] => true
  | db, op :: rest =>
      match apply_group_op db g op with
      | none => false
      | some db' => group_ops_ok g db' rest

/-! ## Defense engine (`services/defense.py`, config defaults of
`config.py`: `MAX_AUTH_FAILURES = 5`, `FAILURE_MODE = "ip_temp"`,
`IP_BLOCK_MINUTES = 60`, `PANIC_MODE = False`) -/

def MAX_AUTH_FAILURES : Nat := 5

def FAILURE_MODE : String := "ip_temp"

def IP_BLOCK_MINUTES : Int := 60

def PANIC_MODE : Bool := false

/-- An `auth_failures` row. -/
structure AuthFailureRow where
  failure_count : Nat
  first_failure_at : Int
  last_failure_at : Int
  deriving DecidableEq

/-- A `blocked_ips` row. -/
structure BlockedIpRow where
  blocked_at : Int
  expires_at : Option Int
  reason : String
  deriving DecidableEq

/-- The two defense tables, keyed by IP (modelled as `Nat`). -/
structure DefenseDB where
  blocked_ips : List (Nat × BlockedIpRow)
  auth_failures : List (Nat × AuthFailureRow)
  deriving DecidableEq

/-- `DefenseService.check_ip_blocked` (defense.py lines 36-69): permanent
blocks always hold, unexpired temporary blocks hold, and an expired block
row is lazily deleted. -/
def check_ip_blocked (db : DefenseDB) (ip : Nat) (now : Int) : Bool × DefenseDB :=
  match aget db.blocked_ips ip with
  | none => (false, db)
  | some row =>
      match row.expires_at with
      | none => (true, db)
      | some e =>
          if now < e then (true, db)
          else (false, { db with blocked_ips := adel db.blocked_ips ip })

/-- `DefenseService._wipe_database` restricted to the defense tables
(defense.py lines 166-179). -/
def wipe_defense_tables (_db : DefenseDB) : DefenseDB :=
  { blocked_ips := [], auth_failures := [] }

/-- `DefenseService.get_failure_count` (defense.py lines 71-79). -/
def get_failure_count (db : DefenseDB) (ip : Nat) : Nat :=
  match aget db.auth_failures ip with
  | none => 0
  | some row => row.failure_count

/-- `DefenseService.record_failure` (defense.py lines 81-107): upsert the
failure row and return `MAX_AUTH_FAILURES - count` (the panic branch
wipes instead; `PANIC_MODE` is `false` under the configuration the claims
assume). -/
def record_failure (db : DefenseDB) (ip : Nat) (now : Int) : Int × DefenseDB :=
  if PANIC_MODE then (0, wipe_defense_tables db)
  else
    let af : AuthFailureRow :=
      match aget db.auth_failures ip with
      | none => { failure_count := 1, first_failure_at := now, last_failure_at := now }
      | some row => { row with failure_count := row.failure_count + 1, last_failure_at := now }
    let db' := { db with auth_failures := aset db.auth_failures ip af }
    ((MAX_AUTH_FAILURES : Int) - (get_failure_count db' ip : Int), db')

/-- `DefenseService.reset_failures` (defense.py lines 109-113). -/
def reset_failures (db : DefenseDB) (ip : Nat) : DefenseDB :=
  { db with auth_failures := adel db.auth_failures ip }

/-- `DefenseService._block_ip_temporary` (defense.py lines 132-149):
upsert a block expiring `IP_BLOCK_MINUTES` from now (times in seconds;
`ON CONFLICT` keeps an existing row's `reason`), then clear the failure
record. -/
def block_ip_temporary (db : DefenseDB) (ip : Nat) (now : Int) : DefenseDB :=
  let expires := now + 60 * IP_BLOCK_MINUTES
  let row : BlockedIpRow :=
    match aget db.blocked_ips ip with
    | none => { blocked_at := now, expires_at := some expires, reason := "auth_failure_threshold" }
    | some old => { old with blocked_at := now, expires_at := some expires }
  reset_failures { db with blocked_ips := aset db.blocked_ips ip row } ip

/-- `DefenseService._block_ip_permanent` (defense.py lines 151-164). -/
def block_ip_permanent (db : DefenseDB) (ip : Nat) (now : Int) : DefenseDB :=
  let row : BlockedIpRow :=
    match aget db.blocked_ips ip with
    | none => { blocked_at := now, expires_at := none, reason := "auth_failure_threshold" }
    | some old => { old with blocked_at := now, expires_at := none }
  reset_failures { db with blocked_ips := aset db.blocked_ips ip row } ip

/-- `DefenseService.trigger_policy` (defense.py lines 115-130); the
process termination of `db_wipe_shutdown` is outside the state model. -/
def trigger_policy (db : DefenseDB) (ip : Nat) (now : Int) : DefenseDB :=
  if FAILURE_MODE = "ip_temp" then block_ip_temporary db ip now
  else if FAILURE_MODE = "ip_perm" then block_ip_permanent db ip now
  else if FAILURE_MODE = "db_wipe" then wipe_defense_tables db
  else if FAILURE_MODE = "db_wipe_shutdown" then wipe_defense_tables db
  else db

/-- The defense-relevant path of `verify_vault` (routers/auth.py lines
130-194): rate check (the REST token bucket is an external collaborator,
its verdict passed in as `rate_allowed`), block check, then either a
failure-count reset on success or a failure record and — once no attempts
remain — the policy trigger. -/
def verify_vault_defense (db : DefenseDB) (ip : Nat) (rate_allowed valid : Bool)
    (now : Int) : DefenseDB :=
  if rate_allowed = false then db
  else
    let chk := check_ip_blocked db ip now
    if chk.1 then chk.2
    else if valid then reset_failures chk.2 ip
    else
      let rf := record_failure chk.2 ip now
      if rf.1 ≤ 0 then trigger_policy rf.2 ip now else rf.2

/-! ## Registry operation traces (for the subscription-index invariant) -/

/-- A registry operation: the four update paths of `WebSocketManager`
that the protocol loop and cleanup tasks converge on. -/
inductive WsOp where
  | connect (ws uid : Nat)
  | disconnect (ws : Nat)
  | subscribe (ws cid : Nat)
  | unsubscribe (ws cid : Nat)
  deriving DecidableEq

def ws_step (m : WebSocketManager) : WsOp → WebSocketManager
  | .connect ws uid => m.connect ws uid
  | .disconnect ws => m.disconnect ws
  | .subscribe ws cid => m.subscribe_to_conversation ws cid
  | .unsubscribe ws cid => m.unsubscribe_from_conversation ws cid

def ws_run : WebSocketManager → List WsOp → WebSocketManager
  | m, [] => m
  | m, op :: rest => ws_run (ws_step m op) rest

/-- Socket handles are fresh on `connect` along the trace (each live
network session registers its socket object exactly once). -/
def ws_ops_fresh : WebSocketManager → List WsOp → Bool
  | _, [] => true
  | m, op :: rest =>
      (match op with
       | .connect ws _ => (aget m.connections ws).isNone
       | _ => true) && ws_ops_fresh (ws_step m op) rest

/-! ## Claim properties and scenario fixtures -/

/-- The socket appears in the subscription-index entry for the
conversation. -/
def in_index (m : WebSocketManager) (ws cid : Nat) : Prop :=
  ∃ l, m.conversation_subscriptions cid = some l ∧ ws ∈ l

/-- The registry invariant: subscription sets are duplicate-free, index
entries are nonempty duplicate-free sets (empty ones are deleted), and a
socket is indexed under a conversation iff that conversation is in its
connection's subscribed set. -/
def registry_consistent (m : WebSocketManager) : Prop :=
  (∀ ws c, aget m.connections ws = some c → c.subscribed_conversations.Nodup)
  ∧ (∀ cid l, m.conversation_subscriptions cid = some l → l ≠ [] ∧ l.Nodup)
  ∧ (∀ ws cid, in_index m ws cid ↔
      ∃ c, aget m.connections ws = some c ∧ cid ∈ c.subscribed_conversations)

/-- The C5 property at the state reached by a trace of registry
operations: the bidirectional index/subscribed-set consistency, the
deletion of subscriber sets that become empty, the scrubbing of a
disconnected socket from every conversation's subscriber set, and (for
every manager state) idempotence of `disconnect`. -/
def registry_claim (ops : List WsOp) : Prop :=
  (∀ ws cid, in_index (ws_run WebSocketManager.init ops) ws cid ↔
    ∃ c, aget (ws_run WebSocketManager.init ops).connections ws = some c ∧
      cid ∈ c.subscribed_conversations)
  ∧ (∀ cid l,
      (ws_run WebSocketManager.init ops).conversation_subscriptions cid = some l →
      l ≠ [])
  ∧ (∀ ws cid, ¬ in_index ((ws_run WebSocketManager.init ops).disconnect ws) ws cid)
  ∧ (∀ (m : WebSocketManager) (ws : Nat),
      (m.disconnect ws).disconnect ws = m.disconnect ws)

/-- Replace a connection's recorded rate timestamps. -/
def set_timestamps (c : Connection) (ts : List Int) : Connection :=
  { c with message_timestamps := ts }

/-- Replace the registry entry of one socket. -/
def with_connection (m : WebSocketManager) (ws : Nat) (c : Connection) :
    WebSocketManager :=
  { m with connections := aset m.connections ws c }

/-- A sequence of `message` sends through the rate guard, at the limits
the router passes (`MAX_WS_MESSAGES_PER_WINDOW`, `WS_RATE_WINDOW_SECONDS`);
returns the final registry and each send's verdict. -/
def rate_run (ws : Nat) : WebSocketManager → List Int → WebSocketManager × List Bool
  | m, [] => (m, [])
  | m, t :: ts =>
      let r := m.allow_incoming_message ws MAX_WS_MESSAGES_PER_WINDOW
        WS_RATE_WINDOW_SECONDS t
      let rest := rate_run ws r.2 ts
      (rest.1, r.1 :: rest.2)

/-- The C7 property at a registered connection: the settled step behavior
of the guard (allowed below cap with the timestamp recorded, denied at
cap with nothing recorded, allowed again once every recorded timestamp
has aged out of the window), plus the spec scenario: from an idle
connection, exactly `MAX_WS_MESSAGES_PER_WINDOW` sends within one window
all succeed, the next send inside the window is denied, and a send after
the window fully elapses succeeds. -/
def rate_guard_claim (m : WebSocketManager) (ws : Nat) (c : Connection) : Prop :=
  (∀ now : Int,
    (c.message_timestamps.dropWhile
        (fun t => decide (t < now - WS_RATE_WINDOW_SECONDS))).length <
        MAX_WS_MESSAGES_PER_WINDOW →
    m.allow_incoming_message ws MAX_WS_MESSAGES_PER_WINDOW WS_RATE_WINDOW_SECONDS now =
      (true, with_connection m ws (set_timestamps c
        (c.message_timestamps.dropWhile
          (fun t => decide (t < now - WS_RATE_WINDOW_SECONDS)) ++ [now]))))
  ∧ (∀ now : Int,
    MAX_WS_MESSAGES_PER_WINDOW ≤
        (c.message_timestamps.dropWhile
          (fun t => decide (t < now - WS_RATE_WINDOW_SECONDS))).length →
    m.allow_incoming_message ws MAX_WS_MESSAGES_PER_WINDOW WS_RATE_WINDOW_SECONDS now =
      (false, with_connection m ws (set_timestamps c
        (c.message_timestamps.dropWhile
          (fun t => decide (t < now - WS_RATE_WINDOW_SECONDS))))))
  ∧ (∀ now : Int,
    (∀ t ∈ c.message_timestamps, t < now - WS_RATE_WINDOW_SECONDS) →
    (m.allow_incoming_message ws MAX_WS_MESSAGES_PER_WINDOW
      WS_RATE_WINDOW_SECONDS now).1 = true)
  ∧ (c.message_timestamps = [] →
    ∀ ts : List Int, ts.length = MAX_WS_MESSAGES_PER_WINDOW →
    (∀ a ∈ ts, ∀ b ∈ ts, b - a < WS_RATE_WINDOW_SECONDS) →
    (rate_run ws m ts).2 = ts.map (fun _ => true) ∧
    (∀ t31 : Int, (∀ a ∈ ts, t31 - WS_RATE_WINDOW_SECONDS ≤ a) →
      ((rate_run ws m ts).1.allow_incoming_message ws MAX_WS_MESSAGES_PER_WINDOW
        WS_RATE_WINDOW_SECONDS t31).1 = false) ∧
    (∀ tl : Int, (∀ a ∈ ts, a < tl - WS_RATE_WINDOW_SECONDS) →
      ((rate_run ws m ts).1.allow_incoming_message ws MAX_WS_MESSAGES_PER_WINDOW
        WS_RATE_WINDOW_SECONDS tl).1 = true))

/-- The C6 property: no handler admits a subscription that pushes any
connection past the 500-subscription cap, and a `subscribe` frame for a
new conversation arriving at the cap is answered with
`subscription_limit_reached`, leaving the registry (both the connection's
subscribed set and every conversation's subscriber set) unchanged. -/
def subscription_cap_claim (db : DB) (m : WebSocketManager) (ws uid : Nat) : Prop :=
  (∀ cid w, m.get_subscription_count w ≤ MAX_WS_SUBSCRIPTIONS_PER_CONNECTION →
    (handle_subscribe db m ws uid cid).1.get_subscription_count w ≤
      MAX_WS_SUBSCRIPTIONS_PER_CONNECTION)
  ∧ (∀ w, m.get_subscription_count w ≤ MAX_WS_SUBSCRIPTIONS_PER_CONNECTION →
    (handle_subscribe_user db m ws uid).1.get_subscription_count w ≤
      MAX_WS_SUBSCRIPTIONS_PER_CONNECTION)
  ∧ (∀ cid, m.is_subscribed_to_conversation ws cid = false →
      MAX_WS_SUBSCRIPTIONS_PER_CONNECTION ≤ m.get_subscription_count ws →
      handle_subscribe db m ws uid cid =
        (m, [Event.personal ws (Frame.errorMsg "subscription_limit_reached")]))

/-- Rewrite every connection's subscribed set (used to state that
`send_to_user` ignores subscription state). -/
def resubscribe_all (m : WebSocketManager) (g : Nat → List Nat) : WebSocketManager :=
  { m with connections := m.connections.map (fun p =>
      (p.1, { p.2 with subscribed_conversations := g p.1 })) }

/-- The C2 property: `send_to_user` targets exactly the registered
connections authenticated as the user, independently of their
subscription state; `toUser` intents (the direct `message_seen` sender
copy and the expiry notices) resolve through it; and the expiry worker
emits only `toUser` intents. -/
def send_to_user_claim (m : WebSocketManager) (u : Nat) (f : Frame) : Prop :=
  (∀ ws c, (ws, c) ∈ m.connections → c.user_id = u → ws ∈ m.send_to_user u)
  ∧ (∀ ws, ws ∈ m.send_to_user u →
      ∃ c, (ws, c) ∈ m.connections ∧ c.user_id = u)
  ∧ (deliver m (Event.toUser u f) = (m.send_to_user u).map (fun ws => (ws, f)))
  ∧ (∀ g : Nat → List Nat,
      (resubscribe_all m g).send_to_user u = m.send_to_user u)
  ∧ (∀ (db : DB) (now : Int), ∀ e ∈ (process_due_message_expiry db now).2,
      ∃ uid fr, e = Event.toUser uid fr)

/-- The C4 property for a group `g` with initial epoch `e0`. -/
def group_epoch_claim (g : Nat) (db : DB) (e0 : Int) : Prop :=
  (∀ ops : List GroupOp, group_ops_ok g db ops = true →
    aget (run_group_ops g db ops).groups g = some (e0 + ops.length))
  ∧ (∀ ops : List GroupOp,
      ∃ e, aget (run_group_ops g db ops).groups g = some e ∧ e0 ≤ e)
  ∧ (∀ (db2 : DB) (op : GroupOp) (db3 : DB) (e : Int),
      apply_group_op db2 g op = some db3 → aget db2.groups g = some e →
      aget db3.groups g = some (e + 1))

/-- A run of recorded authentication failures for one IP (the
`verify_vault` invalid-passphrase path), at the given times. -/
def fail_times (ip : Nat) : DefenseDB → List Int → DefenseDB
  | db, [] => db
  | db, t :: ts => fail_times ip (verify_vault_defense db ip true false t) ts

/-- The IP is unblocked and its failure record counts `c` (no record for
`c = 0`). -/
def clean_below (ip : Nat) (db : DefenseDB) (c : Nat) : Prop :=
  aget db.blocked_ips ip = none ∧
  ((aget db.auth_failures ip = none ∧ c = 0) ∨
   (∃ fr : AuthFailureRow, aget db.auth_failures ip = some fr ∧ fr.failure_count = c))

/-- The C8 property for a clean IP: fewer than `MAX_AUTH_FAILURES`
failures leave the IP unblocked with the exact count recorded; the
`MAX_AUTH_FAILURES`-th failure inserts a temporary block expiring
`IP_BLOCK_MINUTES` from now and deletes the failure record; a success
before the threshold deletes the failure record. -/
def defense_claim (ip : Nat) (db : DefenseDB) : Prop :=
  (∀ ts : List Int, ts.length < MAX_AUTH_FAILURES →
    aget (fail_times ip db ts).blocked_ips ip = none ∧
    get_failure_count (fail_times ip db ts) ip = ts.length)
  ∧ (∀ ts : List Int, ts.length + 1 = MAX_AUTH_FAILURES → ∀ t5 : Int,
    aget (verify_vault_defense (fail_times ip db ts) ip true false t5).blocked_ips ip =
      some { blocked_at := t5, expires_at := some (t5 + 60 * IP_BLOCK_MINUTES),
             reason := "auth_failure_threshold" } ∧
    aget (verify_vault_defense (fail_times ip db ts) ip true false t5).auth_failures ip =
      none)
  ∧ (∀ ts : List Int, ts.length < MAX_AUTH_FAILURES → ∀ t : Int,
    aget (verify_vault_defense (fail_times ip db ts) ip true true t).auth_failures ip =
      none)

/-- The C3 property (amended): for a group conversation at current epoch
`e`, a sender-participant's message frame carrying a client epoch
`g ≥ 1` with `g ≠ e` is answered with a `stale_group_epoch` error and
the database is left unchanged (nothing persisted) with no broadcast;
a client epoch `g < 1` is rejected earlier as `invalid_group_epoch`,
likewise without persisting or broadcasting. -/
def stale_epoch_claim (db : DB) (m : WebSocketManager) (ws uid cid : Nat)
    (rid cmid : Option Nat) (g : Int) (cb ivb : List Nat) (now : Int) : Prop :=
  (∀ e : Int, 1 ≤ g →
    cb.length ≤ MAX_MESSAGE_CIPHERTEXT_BYTES → ivb.length = IV_BYTES →
    (cid, uid) ∈ db.participants →
    aget db.conversations cid = some ConvKind.group →
    aget db.groups cid = some e → g ≠ e →
    ∀ m1 : WebSocketManager,
    m.allow_incoming_message ws MAX_WS_MESSAGES_PER_WINDOW WS_RATE_WINDOW_SECONDS now =
      (true, m1) →
    handle_message db m ws uid
      ⟨some cid, rid, cmid, some g, none, some cb, some ivb⟩ now =
      (db, m1, [Event.personal ws (build_error "stale_group_epoch" "stale_group_epoch" cmid)]))
  ∧ (g < 1 →
    handle_message db m ws uid
      ⟨some cid, rid, cmid, some g, none, some cb, some ivb⟩ now =
      (db, m, [Event.personal ws (build_error "invalid_group_epoch" "Invalid group_epoch" cmid)]))

/-- The per-connection effect of
`subscribe_user_connections_to_conversation` on a registry entry. -/
def sub_user_update (uid cid : Nat) (c : Connection) : Connection :=
  if c.user_id = uid then
    { c with subscribed_conversations := setAdd c.subscribed_conversations cid }
  else c

/-- The C1 `message` frame: first contact to `cid` addressed at `B`, with
a client message id and no group epoch or TTL. -/
def first_contact_frame (cid B cmid : Nat) (cb ivb : List Nat) : MessageFrameIn :=
  { conversation_id := some cid, recipient_id := some B, client_message_id := some cmid,
    group_epoch := none, expires_after_seen_sec := none,
    ciphertext := some cb, iv := some ivb }

/-- The property C1 asserts of a first-contact send: the conversation row
is auto-created (kind `direct`), the participant rows are exactly sender
and recipient, the message row is appended, every registered socket of
either user is subscribed to the conversation, and the events are exactly
one broadcast of the envelope followed by the sender's `message_sent` ack
carrying the client message id and the new message id. -/
def first_contact_claim (db : DB) (m : WebSocketManager) (ws A B cid cmid : Nat)
    (cb ivb : List Nat) (now : Int) : Prop :=
  aget (handle_message db m ws A (first_contact_frame cid B cmid cb ivb) now).1.conversations
    cid = some ConvKind.direct ∧
  (∀ u, (cid, u) ∈
      (handle_message db m ws A (first_contact_frame cid B cmid cb ivb) now).1.participants ↔
      (u = A ∨ u = B)) ∧
  (handle_message db m ws A (first_contact_frame cid B cmid cb ivb) now).1.messages =
    db.messages ++
      [{ id := db.next_message_id, conversation_id := cid, sender_id := A,
         ciphertext := cb, iv := ivb, group_epoch := none,
         expires_after_seen_sec := none, sender_delete_after_seen_at := none,
         sender_deleted_at := none, created_at := now }] ∧
  (∀ ws2 c, aget (handle_message db m ws A (first_contact_frame cid B cmid cb ivb)
        now).2.1.connections ws2 = some c →
      c.user_id = A ∨ c.user_id = B →
      (handle_message db m ws A (first_contact_frame cid B cmid cb ivb)
        now).2.1.is_subscribed_to_conversation ws2 cid = true) ∧
  (handle_message db m ws A (first_contact_frame cid B cmid cb ivb) now).2.2 =
    [Event.broadcast cid (.message db.next_message_id cid A (some cmid) none none
      cb ivb now),
     Event.personal ws (.messageSent db.next_message_id cid cmid now)]

/-- C1 witness scenario: empty database, sockets 5 (user 1) and 6
(user 2). -/
def first_contact_db : DB :=
  { conversations := [], participants := [], groups := [], group_members := [],
    messages := [], message_user_state := [], next_message_id := 1 }

def first_contact_registry : WebSocketManager :=
  { connections :=
      [(5, { user_id := 1, subscribed_conversations := [], message_timestamps := [] }),
       (6, { user_id := 2, subscribed_conversations := [], message_timestamps := [] })],
    conversation_subscriptions := fun _ => none }

/-- C9 scenario database: conversation 7 with sender 1 and recipients 2
and 3; message 10 with `expires_after_seen_sec = 15` and untouched
per-user state rows. -/
def db9 : DB :=
  { conversations := [(7, ConvKind.group)],
    participants := [(7, 1), (7, 2), (7, 3)],
    groups := [],
    group_members := [],
    messages := [{ id := 10, conversation_id := 7, sender_id := 1, ciphertext := [1],
                   iv := [2], group_epoch := none, expires_after_seen_sec := some 15,
                   sender_delete_after_seen_at := none, sender_deleted_at := none,
                   created_at := 0 }],
    message_user_state :=
      [{ message_id := 10, user_id := 1, is_sender := true, seen_at := none,
         delete_after_seen_at := none, deleted_at := none },
       { message_id := 10, user_id := 2, is_sender := false, seen_at := none,
         delete_after_seen_at := none, deleted_at := none },
       { message_id := 10, user_id := 3, is_sender := false, seen_at := none,
         delete_after_seen_at := none, deleted_at := none }],
    next_message_id := 11 }

/-- The database once recipient 2 marked the message seen at `t1` and
recipient 3 at `t2`. -/
def db9_after_seen (t1 t2 : Int) : DB :=
  (handle_message_seen (handle_message_seen db9 0 2 (some 10) (some 7) t1).1
    0 3 (some 10) (some 7) t2).1

/-- The property C9 asserts of the two-recipient seen-expiry scenario:
each recipient's deadline equals their seen time plus 15 seconds, the
sender's deadline equals the maximum seen time plus 15 seconds, and once
every deadline has passed the worker removes the message row and (by
cascade) every per-user state row. -/
def seen_expiry_claim (t1 t2 T : Int) : Prop :=
  (∃ r ∈ (db9_after_seen t1 t2).message_user_state,
      r.user_id = 2 ∧ r.seen_at = some t1 ∧ r.delete_after_seen_at = some (t1 + 15)) ∧
  (∃ r ∈ (db9_after_seen t1 t2).message_user_state,
      r.user_id = 3 ∧ r.seen_at = some t2 ∧ r.delete_after_seen_at = some (t2 + 15)) ∧
  (∃ mr ∈ (db9_after_seen t1 t2).messages,
      mr.id = 10 ∧ mr.sender_delete_after_seen_at = some (max t1 t2 + 15)) ∧
  (process_due_message_expiry (db9_after_seen t1 t2) T).1.messages = [] ∧
  (process_due_message_expiry (db9_after_seen t1 t2) T).1.message_user_state = []

/-! ## Basic lemmas about the map and set helpers -/

theorem aget_aset_self {α : Type} (l : List (Nat × α)) (k : Nat) (v : α) :
    aget (aset l k v) k = some v := by
  simp [aset, aget]

theorem aget_adel_self {α : Type} (l : List (Nat × α)) (k : Nat) :
    aget (adel l k) k = none := by
  induction l with
  | nil => simp [adel, aget]
  | cons p rest ih =>
      obtain ⟨k', v⟩ := p
      by_cases h : k' = k <;> simp [adel, aget, h, ih]

theorem aget_adel_ne {α : Type} (l : List (Nat × α)) {k k' : Nat} (h : k' ≠ k) :
    aget (adel l k) k' = aget l k' := by
  induction l with
  | nil => simp [adel]
  | cons p rest ih =>
      obtain ⟨k'', v⟩ := p
      by_cases h1 : k'' = k
      · subst h1
        simp [adel, aget, Ne.symm h, ih]
      · by_cases h2 : k'' = k' <;> simp [adel, aget, h1, h2, ih, h]

theorem aget_aset_ne {α : Type} (l : List (Nat × α)) {k k' : Nat} (v : α)
    (h : k' ≠ k) : aget (aset l k v) k' = aget l k' := by
  simp [aset, aget, Ne.symm h]
  exact aget_adel_ne l h

theorem mem_setAdd {α : Type} [DecidableEq α] {l : List α} {x y : α} :
    y ∈ setAdd l x ↔ y = x ∨ y ∈ l := by
  unfold setAdd
  by_cases h : x ∈ l
  · simp only [if_pos h]
    constructor
    · exact Or.inr
    · rintro (rfl | hy)
      · exact h
      · exact hy
  · simp [if_neg h]

theorem setAdd_nodup {α : Type} [DecidableEq α] {l : List α} (h : l.Nodup)
    (x : α) : (setAdd l x).Nodup := by
  unfold setAdd
  by_cases hx : x ∈ l <;> simp [hx, h]

theorem setAdd_ne_nil {α : Type} [DecidableEq α] (l : List α) (x : α) :
    setAdd l x ≠ [] := by
  unfold setAdd
  by_cases hx : x ∈ l
  · simp only [if_pos hx]
    rintro rfl
    simp at hx
  · simp [hx]

/-! ## C5: bidirectional consistency of the subscription index -/

theorem consistent_init : registry_consistent WebSocketManager.init := by
  refine ⟨?_, ?_, ?_⟩
  · intro ws c hc
    simp [WebSocketManager.init, aget] at hc
  · intro cid l hl
    simp [WebSocketManager.init] at hl
  · intro ws cid
    constructor
    · rintro ⟨l, hl, _⟩
      simp [WebSocketManager.init] at hl
    · rintro ⟨c, hc, _⟩
      simp [WebSocketManager.init, aget] at hc

theorem disconnect_none (m : WebSocketManager) (ws : Nat)
    (hc : aget m.connections ws = none) : m.disconnect ws = m := by
  unfold WebSocketManager.disconnect
  simp only [hc]

theorem disconnect_conns (m : WebSocketManager) (ws w : Nat) :
    aget (m.disconnect ws).connections w =
      if w = ws then none else aget m.connections w := by
  cases hc : aget m.connections ws with
  | none =>
      rw [disconnect_none m ws hc]
      by_cases hw : w = ws
      · subst hw
        simp [hc]
      · simp [hw]
  | some c =>
      unfold WebSocketManager.disconnect
      simp only [hc]
      by_cases hw : w = ws
      · subst hw
        simp [aget_adel_self]
      · simp [hw, aget_adel_ne _ hw]

theorem disconnect_index_not_mem (m : WebSocketManager) (ws : Nat)
    (c : Connection) (hc : aget m.connections ws = some c) (x : Nat)
    (hx : x ∉ c.subscribed_conversations) :
    (m.disconnect ws).conversation_subscriptions x =
      m.conversation_subscriptions x := by
  unfold WebSocketManager.disconnect
  simp only [hc, if_neg hx]

theorem disconnect_index_mem_none (m : WebSocketManager) (ws : Nat)
    (c : Connection) (hc : aget m.connections ws = some c) (x : Nat)
    (hx : x ∈ c.subscribed_conversations)
    (hbase : m.conversation_subscriptions x = none) :
    (m.disconnect ws).conversation_subscriptions x = none := by
  unfold WebSocketManager.disconnect
  simp only [hc, if_pos hx, hbase]

theorem disconnect_index_mem_some (m : WebSocketManager) (ws : Nat)
    (c : Connection) (hc : aget m.connections ws = some c) (x : Nat)
    (hx : x ∈ c.subscribed_conversations) (l0 : List Nat)
    (hbase : m.conversation_subscriptions x = some l0) :
    (m.disconnect ws).conversation_subscriptions x =
      if l0.erase ws = [] then none else some (l0.erase ws) := by
  unfold WebSocketManager.disconnect
  simp only [hc, if_pos hx, hbase]

theorem subscribe_none (m : WebSocketManager) (ws cid : Nat)
    (hc : aget m.connections ws = none) :
    m.subscribe_to_conversation ws cid = m := by
  unfold WebSocketManager.subscribe_to_conversation
  simp only [hc]

theorem subscribe_conns (m : WebSocketManager) (ws cid : Nat) (c : Connection)
    (hc : aget m.connections ws = some c) (w : Nat) :
    aget (m.subscribe_to_conversation ws cid).connections w =
      if w = ws then
        some { c with subscribed_conversations := setAdd c.subscribed_conversations cid }
      else aget m.connections w := by
  unfold WebSocketManager.subscribe_to_conversation
  simp only [hc]
  by_cases hw : w = ws
  · subst hw
    simp [aget_aset_self]
  · simp [hw, aget_aset_ne _ _ hw]

theorem subscribe_index (m : WebSocketManager) (ws cid : Nat) (c : Connection)
    (hc : aget m.connections ws = some c) (x : Nat) :
    (m.subscribe_to_conversation ws cid).conversation_subscriptions x =
      if x = cid then some (setAdd ((m.conversation_subscriptions cid).getD []) ws)
      else m.conversation_subscriptions x := by
  unfold WebSocketManager.subscribe_to_conversation
  simp only [hc]

theorem unsubscribe_none (m : WebSocketManager) (ws cid : Nat)
    (hc : aget m.connections ws = none) :
    m.unsubscribe_from_conversation ws cid = m := by
  unfold WebSocketManager.unsubscribe_from_conversation
  simp only [hc]

theorem unsubscribe_conns (m : WebSocketManager) (ws cid : Nat) (c : Connection)
    (hc : aget m.connections ws = some c) (w : Nat) :
    aget (m.unsubscribe_from_conversation ws cid).connections w =
      if w = ws then
        some { c with subscribed_conversations := c.subscribed_conversations.erase cid }
      else aget m.connections w := by
  unfold WebSocketManager.unsubscribe_from_conversation
  simp only [hc]
  by_cases hw : w = ws
  · subst hw
    simp [aget_aset_self]
  · simp [hw, aget_aset_ne _ _ hw]

theorem unsubscribe_index_ne (m : WebSocketManager) (ws cid : Nat)
    (c : Connection) (hc : aget m.connections ws = some c) (x : Nat)
    (hx : x ≠ cid) :
    (m.unsubscribe_from_conversation ws cid).conversation_subscriptions x =
      m.conversation_subscriptions x := by
  unfold WebSocketManager.unsubscribe_from_conversation
  simp only [hc, if_neg hx]

theorem unsubscribe_index_eq_none (m : WebSocketManager) (ws cid : Nat)
    (c : Connection) (hc : aget m.connections ws = some c)
    (hbase : m.conversation_subscriptions cid = none) :
    (m.unsubscribe_from_conversation ws cid).conversation_subscriptions cid = none := by
  unfold WebSocketManager.unsubscribe_from_conversation
  simp [hc, hbase]

theorem unsubscribe_index_eq_some (m : WebSocketManager) (ws cid : Nat)
    (c : Connection) (hc : aget m.connections ws = some c) (l0 : List Nat)
    (hbase : m.conversation_subscriptions cid = some l0) :
    (m.unsubscribe_from_conversation ws cid).conversation_subscriptions cid =
      if l0.erase ws = [] then none else some (l0.erase ws) := by
  unfold WebSocketManager.unsubscribe_from_conversation
  simp [hc, hbase]

theorem consistent_connect (m : WebSocketManager) (ws uid : Nat)
    (h : registry_consistent m) (hfresh : aget m.connections ws = none) :
    registry_consistent (m.connect ws uid) := by
  obtain ⟨h1, h2, h3⟩ := h
  refine ⟨?_, ?_, ?_⟩
  · intro w c hc
    by_cases hw : w = ws
    · subst hw
      rw [WebSocketManager.connect] at hc
      simp only [aget_aset_self, Option.some.injEq] at hc
      subst hc
      simp
    · rw [WebSocketManager.connect] at hc
      rw [aget_aset_ne _ _ hw] at hc
      exact h1 w c hc
  · intro cid l hl
    exact h2 cid l hl
  · intro w cid
    have hidx : in_index (m.connect ws uid) w cid ↔ in_index m w cid := Iff.rfl
    rw [hidx]
    by_cases hw : w = ws
    · subst hw
      constructor
      · intro hin
        rcases (h3 w cid).mp hin with ⟨c, hc, _⟩
        rw [hfresh] at hc
        exact absurd hc (by simp)
      · rintro ⟨c, hc, hmem⟩
        rw [WebSocketManager.connect] at hc
        simp only [aget_aset_self, Option.some.injEq] at hc
        subst hc
        simp at hmem
    · rw [h3 w cid]
      constructor
      · rintro ⟨c, hc, hmem⟩
        refine ⟨c, ?_, hmem⟩
        rw [WebSocketManager.connect, aget_aset_ne _ _ hw]
        exact hc
      · rintro ⟨c, hc, hmem⟩
        rw [WebSocketManager.connect, aget_aset_ne _ _ hw] at hc
        exact ⟨c, hc, hmem⟩

theorem consistent_subscribe (m : WebSocketManager) (ws cid : Nat)
    (h : registry_consistent m) :
    registry_consistent (m.subscribe_to_conversation ws cid) := by
  obtain ⟨h1, h2, h3⟩ := h
  cases hc : aget m.connections ws with
  | none => rw [subscribe_none m ws cid hc]; exact ⟨h1, h2, h3⟩
  | some c =>
      refine ⟨?_, ?_, ?_⟩
      · intro w c2 hc2
        rw [subscribe_conns m ws cid c hc] at hc2
        by_cases hw : w = ws
        · rw [if_pos hw] at hc2
          cases hc2
          exact setAdd_nodup (h1 ws c hc) cid
        · rw [if_neg hw] at hc2
          exact h1 w c2 hc2
      · intro x l hl
        rw [subscribe_index m ws cid c hc] at hl
        by_cases hx : x = cid
        · rw [if_pos hx] at hl
          cases hl
          refine ⟨setAdd_ne_nil _ _, ?_⟩
          cases hbase : m.conversation_subscriptions cid with
          | none => simp [hbase, setAdd_nodup]
          | some l0 =>
              simp only [hbase, Option.getD_some]
              exact setAdd_nodup (h2 cid l0 hbase).2 ws
        · rw [if_neg hx] at hl
          exact h2 x l hl
      · intro w x
        constructor
        · rintro ⟨l, hl, hwl⟩
          rw [subscribe_index m ws cid c hc] at hl
          by_cases hx : x = cid
          · rw [if_pos hx] at hl
            cases hl
            rw [mem_setAdd] at hwl
            rcases hwl with hww | hwl
            · refine ⟨{ c with subscribed_conversations := setAdd c.subscribed_conversations cid }, ?_, ?_⟩
              · rw [subscribe_conns m ws cid c hc, if_pos hww]
              · rw [hx]
                exact mem_setAdd.mpr (Or.inl rfl)
            · have hold : in_index m w cid := by
                cases hbase : m.conversation_subscriptions cid with
                | none => rw [hbase] at hwl; simp at hwl
                | some l0 => rw [hbase] at hwl; exact ⟨l0, hbase, hwl⟩
              rcases (h3 w cid).mp hold with ⟨c2, hc2, hmem⟩
              by_cases hw : w = ws
              · rw [hw, hc] at hc2
                cases hc2
                refine ⟨{ c with subscribed_conversations := setAdd c.subscribed_conversations cid }, ?_, ?_⟩
                · rw [subscribe_conns m ws cid c hc, if_pos hw]
                · rw [hx]
                  exact mem_setAdd.mpr (Or.inr hmem)
              · refine ⟨c2, ?_, ?_⟩
                · rw [subscribe_conns m ws cid c hc, if_neg hw]
                  exact hc2
                · rw [hx]
                  exact hmem
          · rw [if_neg hx] at hl
            have hold : in_index m w x := ⟨l, hl, hwl⟩
            rcases (h3 w x).mp hold with ⟨c2, hc2, hmem⟩
            by_cases hw : w = ws
            · rw [hw, hc] at hc2
              cases hc2
              refine ⟨{ c with subscribed_conversations := setAdd c.subscribed_conversations cid }, ?_, ?_⟩
              · rw [subscribe_conns m ws cid c hc, if_pos hw]
              · exact mem_setAdd.mpr (Or.inr hmem)
            · refine ⟨c2, ?_, hmem⟩
              rw [subscribe_conns m ws cid c hc, if_neg hw]
              exact hc2
        · rintro ⟨c2, hc2, hmem⟩
          rw [subscribe_conns m ws cid c hc] at hc2
          by_cases hw : w = ws
          · rw [if_pos hw] at hc2
            cases hc2
            rw [mem_setAdd] at hmem
            rcases hmem with hxc | hmem
            · refine ⟨setAdd ((m.conversation_subscriptions cid).getD []) ws, ?_, ?_⟩
              · rw [subscribe_index m ws cid c hc, if_pos hxc]
              · exact mem_setAdd.mpr (Or.inl hw)
            · have hold : in_index m ws x := (h3 ws x).mpr ⟨c, hc, hmem⟩
              rcases hold with ⟨l, hl, hwl⟩
              by_cases hx : x = cid
              · refine ⟨setAdd ((m.conversation_subscriptions cid).getD []) ws, ?_, ?_⟩
                · rw [subscribe_index m ws cid c hc, if_pos hx]
                · exact mem_setAdd.mpr (Or.inl hw)
              · refine ⟨l, ?_, ?_⟩
                · rw [subscribe_index m ws cid c hc, if_neg hx]
                  exact hl
                · rw [hw]
                  exact hwl
          · rw [if_neg hw] at hc2
            have hold : in_index m w x := (h3 w x).mpr ⟨c2, hc2, hmem⟩
            rcases hold with ⟨l, hl, hwl⟩
            by_cases hx : x = cid
            · refine ⟨setAdd ((m.conversation_subscriptions cid).getD []) ws, ?_, ?_⟩
              · rw [subscribe_index m ws cid c hc, if_pos hx]
              · rw [hx] at hl
                rw [hl, Option.getD_some]
                exact mem_setAdd.mpr (Or.inr hwl)
            · refine ⟨l, ?_, hwl⟩
              rw [subscribe_index m ws cid c hc, if_neg hx]
              exact hl

theorem in_index_some {m : WebSocketManager} {cid : Nat} {l : List Nat}
    (hl : m.conversation_subscriptions cid = some l) (w : Nat) :
    in_index m w cid ↔ w ∈ l := by
  constructor
  · rintro ⟨l', hl', hw⟩
    rw [hl] at hl'
    cases hl'
    exact hw
  · intro hw
    exact ⟨l, hl, hw⟩

theorem in_index_none {m : WebSocketManager} {cid : Nat}
    (hl : m.conversation_subscriptions cid = none) (w : Nat) :
    ¬ in_index m w cid := by
  rintro ⟨l', hl', _⟩
  rw [hl] at hl'
  cases hl'

theorem mem_of_erase_eq_nil {l : List Nat} (hnd : l.Nodup) {ws w : Nat}
    (he : l.erase ws = []) (hw : w ∈ l) : w = ws := by
  by_contra hne
  have hmem : w ∈ l.erase ws := (List.Nodup.mem_erase_iff hnd).mpr ⟨hne, hw⟩
  rw [he] at hmem
  simp at hmem

theorem consistent_unsubscribe (m : WebSocketManager) (ws cid : Nat)
    (h : registry_consistent m) :
    registry_consistent (m.unsubscribe_from_conversation ws cid) := by
  obtain ⟨h1, h2, h3⟩ := h
  cases hc : aget m.connections ws with
  | none => rw [unsubscribe_none m ws cid hc]; exact ⟨h1, h2, h3⟩
  | some c =>
      have hcnd : c.subscribed_conversations.Nodup := h1 ws c hc
      refine ⟨?_, ?_, ?_⟩
      · intro w c2 hc2
        rw [unsubscribe_conns m ws cid c hc] at hc2
        by_cases hw : w = ws
        · rw [if_pos hw] at hc2
          cases hc2
          exact List.Nodup.erase cid hcnd
        · rw [if_neg hw] at hc2
          exact h1 w c2 hc2
      · intro x l hl
        by_cases hx : x = cid
        · rw [hx] at hl
          cases hbase : m.conversation_subscriptions cid with
          | none =>
              rw [unsubscribe_index_eq_none m ws cid c hc hbase] at hl
              cases hl
          | some l0 =>
              rw [unsubscribe_index_eq_some m ws cid c hc l0 hbase] at hl
              by_cases hemp : l0.erase ws = []
              · rw [if_pos hemp] at hl
                cases hl
              · rw [if_neg hemp] at hl
                cases hl
                exact ⟨hemp, List.Nodup.erase ws (h2 cid l0 hbase).2⟩
        · rw [unsubscribe_index_ne m ws cid c hc x hx] at hl
          exact h2 x l hl
      · intro w x
        constructor
        · rintro ⟨l, hl, hwl⟩
          by_cases hx : x = cid
          · rw [hx] at hl
            cases hbase : m.conversation_subscriptions cid with
            | none =>
                rw [unsubscribe_index_eq_none m ws cid c hc hbase] at hl
                cases hl
            | some l0 =>
                rw [unsubscribe_index_eq_some m ws cid c hc l0 hbase] at hl
                by_cases hemp : l0.erase ws = []
                · rw [if_pos hemp] at hl
                  cases hl
                · rw [if_neg hemp] at hl
                  cases hl
                  have hww := (List.Nodup.mem_erase_iff (h2 cid l0 hbase).2).mp hwl
                  have hold : in_index m w cid := ⟨l0, hbase, hww.2⟩
                  rcases (h3 w cid).mp hold with ⟨c2, hc2, hmem⟩
                  refine ⟨c2, ?_, ?_⟩
                  · rw [unsubscribe_conns m ws cid c hc, if_neg hww.1]
                    exact hc2
                  · rw [hx]
                    exact hmem
          · rw [unsubscribe_index_ne m ws cid c hc x hx] at hl
            have hold : in_index m w x := ⟨l, hl, hwl⟩
            rcases (h3 w x).mp hold with ⟨c2, hc2, hmem⟩
            by_cases hw : w = ws
            · rw [hw, hc] at hc2
              cases hc2
              refine ⟨{ c with subscribed_conversations := c.subscribed_conversations.erase cid }, ?_, ?_⟩
              · rw [unsubscribe_conns m ws cid c hc, if_pos hw]
              · exact (List.Nodup.mem_erase_iff hcnd).mpr ⟨hx, hmem⟩
            · refine ⟨c2, ?_, hmem⟩
              rw [unsubscribe_conns m ws cid c hc, if_neg hw]
              exact hc2
        · rintro ⟨c2, hc2, hmem⟩
          rw [unsubscribe_conns m ws cid c hc] at hc2
          by_cases hw : w = ws
          · rw [if_pos hw] at hc2
            cases hc2
            have hmem2 := (List.Nodup.mem_erase_iff hcnd).mp hmem
            have hold : in_index m ws x := (h3 ws x).mpr ⟨c, hc, hmem2.2⟩
            rcases hold with ⟨l, hl, hwl⟩
            refine ⟨l, ?_, ?_⟩
            · rw [unsubscribe_index_ne m ws cid c hc x hmem2.1]
              exact hl
            · rw [hw]
              exact hwl
          · rw [if_neg hw] at hc2
            have hold : in_index m w x := (h3 w x).mpr ⟨c2, hc2, hmem⟩
            rcases hold with ⟨l, hl, hwl⟩
            by_cases hx : x = cid
            · rw [hx] at hl
              refine ⟨l.erase ws, ?_, ?_⟩
              · rw [hx, unsubscribe_index_eq_some m ws cid c hc l hl]
                have hne : l.erase ws ≠ [] := by
                  intro hemp
                  exact hw (mem_of_erase_eq_nil (h2 cid l hl).2 hemp hwl)
                rw [if_neg hne]
              · exact (List.Nodup.mem_erase_iff (h2 cid l hl).2).mpr ⟨hw, hwl⟩
            · refine ⟨l, ?_, hwl⟩
              rw [unsubscribe_index_ne m ws cid c hc x hx]
              exact hl

theorem consistent_disconnect (m : WebSocketManager) (ws : Nat)
    (h : registry_consistent m) :
    registry_consistent (m.disconnect ws) := by
  obtain ⟨h1, h2, h3⟩ := h
  cases hc : aget m.connections ws with
  | none => rw [disconnect_none m ws hc]; exact ⟨h1, h2, h3⟩
  | some c =>
      have hcnd : c.subscribed_conversations.Nodup := h1 ws c hc
      refine ⟨?_, ?_, ?_⟩
      · intro w c2 hc2
        rw [disconnect_conns m ws w] at hc2
        by_cases hw : w = ws
        · rw [if_pos hw] at hc2
          cases hc2
        · rw [if_neg hw] at hc2
          exact h1 w c2 hc2
      · intro x l hl
        by_cases hx : x ∈ c.subscribed_conversations
        · cases hbase : m.conversation_subscriptions x with
          | none =>
              rw [disconnect_index_mem_none m ws c hc x hx hbase] at hl
              cases hl
          | some l0 =>
              rw [disconnect_index_mem_some m ws c hc x hx l0 hbase] at hl
              by_cases hemp : l0.erase ws = []
              · rw [if_pos hemp] at hl
                cases hl
              · rw [if_neg hemp] at hl
                cases hl
                exact ⟨hemp, List.Nodup.erase ws (h2 x l0 hbase).2⟩
        · rw [disconnect_index_not_mem m ws c hc x hx] at hl
          exact h2 x l hl
      · intro w x
        constructor
        · rintro ⟨l, hl, hwl⟩
          by_cases hx : x ∈ c.subscribed_conversations
          · cases hbase : m.conversation_subscriptions x with
            | none =>
                rw [disconnect_index_mem_none m ws c hc x hx hbase] at hl
                cases hl
            | some l0 =>
                rw [disconnect_index_mem_some m ws c hc x hx l0 hbase] at hl
                by_cases hemp : l0.erase ws = []
                · rw [if_pos hemp] at hl
                  cases hl
                · rw [if_neg hemp] at hl
                  cases hl
                  have hww := (List.Nodup.mem_erase_iff (h2 x l0 hbase).2).mp hwl
                  have hold : in_index m w x := ⟨l0, hbase, hww.2⟩
                  rcases (h3 w x).mp hold with ⟨c2, hc2, hmem⟩
                  refine ⟨c2, ?_, hmem⟩
                  rw [disconnect_conns m ws w, if_neg hww.1]
                  exact hc2
          · rw [disconnect_index_not_mem m ws c hc x hx] at hl
            have hold : in_index m w x := ⟨l, hl, hwl⟩
            rcases (h3 w x).mp hold with ⟨c2, hc2, hmem⟩
            by_cases hw : w = ws
            · rw [hw, hc] at hc2
              cases hc2
              exact absurd hmem hx
            · refine ⟨c2, ?_, hmem⟩
              rw [disconnect_conns m ws w, if_neg hw]
              exact hc2
        · rintro ⟨c2, hc2, hmem⟩
          rw [disconnect_conns m ws w] at hc2
          by_cases hw : w = ws
          · rw [if_pos hw] at hc2
            cases hc2
          · rw [if_neg hw] at hc2
            have hold : in_index m w x := (h3 w x).mpr ⟨c2, hc2, hmem⟩
            rcases hold with ⟨l, hl, hwl⟩
            by_cases hx : x ∈ c.subscribed_conversations
            · refine ⟨l.erase ws, ?_, ?_⟩
              · rw [disconnect_index_mem_some m ws c hc x hx l hl]
                have hne : l.erase ws ≠ [] := by
                  intro hemp
                  exact hw (mem_of_erase_eq_nil (h2 x l hl).2 hemp hwl)
                rw [if_neg hne]
              · exact (List.Nodup.mem_erase_iff (h2 x l hl).2).mpr ⟨hw, hwl⟩
            · refine ⟨l, ?_, hwl⟩
              rw [disconnect_index_not_mem m ws c hc x hx]
              exact hl

theorem consistent_step (m : WebSocketManager) (op : WsOp)
    (h : registry_consistent m)
    (hop : (match op with
            | WsOp.connect ws _ => (aget m.connections ws).isNone
            | _ => true) = true) :
    registry_consistent (ws_step m op) := by
  cases op with
  | connect ws uid =>
      rw [Option.isNone_iff_eq_none] at hop
      exact consistent_connect m ws uid h hop
  | disconnect ws => exact consistent_disconnect m ws h
  | subscribe ws cid => exact consistent_subscribe m ws cid h
  | unsubscribe ws cid => exact consistent_unsubscribe m ws cid h

theorem consistent_run (m : WebSocketManager) (ops : List WsOp)
    (h : registry_consistent m) (hf : ws_ops_fresh m ops = true) :
    registry_consistent (ws_run m ops) := by
  induction ops generalizing m with
  | nil => exact h
  | cons op rest ih =>
      simp only [ws_ops_fresh, Bool.and_eq_true] at hf
      exact ih (ws_step m op) (consistent_step m op h hf.1) hf.2

/-- **C5**: after any sequence of `connect`, `disconnect`,
`subscribe_to_conversation` and `unsubscribe_from_conversation`
operations (socket handles fresh on connect), a websocket appears in the
subscription-index entry for conversation `cid` iff `cid` is in that
connection's subscribed set; subscriber-set entries that become empty are
deleted; `disconnect` removes the socket from every conversation's
subscriber set and is idempotent. -/
theorem subscription_index_bidirectional_consistency (ops : List WsOp)
    (hf : ws_ops_fresh WebSocketManager.init ops = true) :
    registry_claim ops := by
  have hinv := consistent_run WebSocketManager.init ops consistent_init hf
  obtain ⟨h1, h2, h3⟩ := hinv
  refine ⟨h3, fun cid l hl => (h2 cid l hl).1, ?_, ?_⟩
  · intro ws cid
    have hinv2 := consistent_disconnect (ws_run WebSocketManager.init ops) ws ⟨h1, h2, h3⟩
    intro hin
    rcases (hinv2.2.2 ws cid).mp hin with ⟨c, hc, _⟩
    rw [disconnect_conns, if_pos rfl] at hc
    cases hc
  · intro m ws
    apply disconnect_none
    rw [disconnect_conns, if_pos rfl]

/-- Witness for C5 on a concrete trace: two sockets, connects,
subscriptions to a shared conversation, an unsubscribe and a disconnect. -/
theorem subscription_index_bidirectional_consistency_witness :
    ws_ops_fresh WebSocketManager.init
      [WsOp.connect 1 10, WsOp.connect 2 20, WsOp.subscribe 1 5,
       WsOp.subscribe 2 5, WsOp.unsubscribe 1 5, WsOp.disconnect 2] = true ∧
    registry_claim
      [WsOp.connect 1 10, WsOp.connect 2 20, WsOp.subscribe 1 5,
       WsOp.subscribe 2 5, WsOp.unsubscribe 1 5, WsOp.disconnect 2] :=
  ⟨by decide, subscription_index_bidirectional_consistency _ (by decide)⟩

/-! ## C7: per-connection sliding-window rate guard -/

theorem dropWhile_eq_self_of_all {l : List Int} {p : Int → Bool}
    (h : ∀ x ∈ l, p x = false) : l.dropWhile p = l := by
  cases l with
  | nil => rfl
  | cons a as =>
      rw [List.dropWhile_cons, h a (by simp)]
      simp

theorem dropWhile_eq_nil_of_all {l : List Int} {p : Int → Bool}
    (h : ∀ x ∈ l, p x = true) : l.dropWhile p = [] := by
  induction l with
  | nil => rfl
  | cons a as ih =>
      rw [List.dropWhile_cons, h a (by simp)]
      simp only [if_true]
      exact ih (fun x hx => h x (by simp [hx]))

theorem allow_denied (m : WebSocketManager) (ws : Nat) (c : Connection)
    (maxm : Nat) (wsec now : Int) (hc : aget m.connections ws = some c)
    (hlen : maxm ≤ (c.message_timestamps.dropWhile
      (fun t => decide (t < now - wsec))).length) :
    m.allow_incoming_message ws maxm wsec now =
      (false, with_connection m ws (set_timestamps c
        (c.message_timestamps.dropWhile (fun t => decide (t < now - wsec))))) := by
  unfold WebSocketManager.allow_incoming_message with_connection set_timestamps
  simp only [hc, if_pos hlen]

theorem allow_granted (m : WebSocketManager) (ws : Nat) (c : Connection)
    (maxm : Nat) (wsec now : Int) (hc : aget m.connections ws = some c)
    (hlen : (c.message_timestamps.dropWhile
      (fun t => decide (t < now - wsec))).length < maxm) :
    m.allow_incoming_message ws maxm wsec now =
      (true, with_connection m ws (set_timestamps c
        (c.message_timestamps.dropWhile (fun t => decide (t < now - wsec)) ++ [now]))) := by
  unfold WebSocketManager.allow_incoming_message with_connection set_timestamps
  simp only [hc, if_neg (Nat.not_le.mpr hlen)]

/-- A run of sends all within one window of every recorded timestamp and
of each other, fitting under the cap: every send is allowed and the
timestamps accumulate in order. -/
theorem rate_run_all_allowed (ws : Nat) :
    ∀ (ts : List Int) (m : WebSocketManager) (c : Connection),
    aget m.connections ws = some c →
    (∀ a ∈ c.message_timestamps, ∀ b ∈ ts, b - a < WS_RATE_WINDOW_SECONDS) →
    (∀ a ∈ ts, ∀ b ∈ ts, b - a < WS_RATE_WINDOW_SECONDS) →
    c.message_timestamps.length + ts.length ≤ MAX_WS_MESSAGES_PER_WINDOW →
    (rate_run ws m ts).2 = ts.map (fun _ => true) ∧
    aget (rate_run ws m ts).1.connections ws =
      some { c with message_timestamps := c.message_timestamps ++ ts } := by
  intro ts
  induction ts with
  | nil =>
      intro m c hc _ _ _
      refine ⟨rfl, ?_⟩
      rw [rate_run]
      simpa using hc
  | cons t rest ih =>
      intro m c hc hwin hpair hlen
      have hkeep : c.message_timestamps.dropWhile
          (fun x => decide (x < t - WS_RATE_WINDOW_SECONDS)) = c.message_timestamps := by
        apply dropWhile_eq_self_of_all
        intro x hx
        have := hwin x hx t (by simp)
        simp only [decide_eq_false_iff_not, not_lt]
        omega
      have hlt : (c.message_timestamps.dropWhile
          (fun x => decide (x < t - WS_RATE_WINDOW_SECONDS))).length <
          MAX_WS_MESSAGES_PER_WINDOW := by
        rw [hkeep]
        simp only [List.length_cons] at hlen
        omega
      have hstep := allow_granted m ws c MAX_WS_MESSAGES_PER_WINDOW
        WS_RATE_WINDOW_SECONDS t hc hlt
      rw [rate_run, hstep]
      simp only []
      rw [hkeep]
      set c' : Connection := set_timestamps c (c.message_timestamps ++ [t]) with hcdef
      set m' : WebSocketManager := with_connection m ws c' with hmdef
      have hts' : c'.message_timestamps = c.message_timestamps ++ [t] := by
        rw [hcdef]
        rfl
      have hc' : aget m'.connections ws = some c' := by
        rw [hmdef]
        exact aget_aset_self m.connections ws c'
      have hwin' : ∀ a ∈ c'.message_timestamps, ∀ b ∈ rest,
          b - a < WS_RATE_WINDOW_SECONDS := by
        intro a ha b hb
        rw [hts'] at ha
        simp only [List.mem_append, List.mem_singleton] at ha
        rcases ha with ha | ha
        · exact hwin a ha b (by simp [hb])
        · rw [ha]
          exact hpair t (by simp) b (by simp [hb])
      have hpair' : ∀ a ∈ rest, ∀ b ∈ rest, b - a < WS_RATE_WINDOW_SECONDS :=
        fun a ha b hb => hpair a (by simp [ha]) b (by simp [hb])
      have hlen' : c'.message_timestamps.length + rest.length ≤
          MAX_WS_MESSAGES_PER_WINDOW := by
        rw [hts']
        simp only [List.length_append, List.length_cons] at hlen ⊢
        simp only [List.length_nil] at hlen ⊢
        omega
      have hres := ih m' c' hc' hwin' hpair' hlen'
      refine ⟨?_, ?_⟩
      · simp only [List.map_cons]
        rw [hres.1]
      · rw [hres.2, hcdef]
        simp [set_timestamps, List.append_assoc]

/-- **C7**: the sliding-window rate guard (30 messages per 10-second
window) behaves as specified at every registered connection. -/
theorem sliding_window_rate_guard (m : WebSocketManager) (ws : Nat)
    (c : Connection) (hc : aget m.connections ws = some c) :
    rate_guard_claim m ws c := by
  refine ⟨?_, ?_, ?_, ?_⟩
  · intro now hlen
    exact allow_granted m ws c _ _ now hc hlen
  · intro now hlen
    exact allow_denied m ws c _ _ now hc hlen
  · intro now hold
    have hnil : c.message_timestamps.dropWhile
        (fun t => decide (t < now - WS_RATE_WINDOW_SECONDS)) = [] := by
      apply dropWhile_eq_nil_of_all
      intro x hx
      simp only [decide_eq_true_eq]
      exact hold x hx
    have := allow_granted m ws c MAX_WS_MESSAGES_PER_WINDOW
      WS_RATE_WINDOW_SECONDS now hc (by rw [hnil]; simp [MAX_WS_MESSAGES_PER_WINDOW])
    rw [this]
  · intro hemp ts hts hpair
    have hwin : ∀ a ∈ c.message_timestamps, ∀ b ∈ ts,
        b - a < WS_RATE_WINDOW_SECONDS := by
      rw [hemp]
      intro a ha
      simp at ha
    have hlen : c.message_timestamps.length + ts.length ≤
        MAX_WS_MESSAGES_PER_WINDOW := by
      rw [hemp, hts]
      simp
    have hrun := rate_run_all_allowed ws ts m c hc hwin hpair hlen
    refine ⟨hrun.1, ?_, ?_⟩
    · intro t31 h31
      have hcfull : aget (rate_run ws m ts).1.connections ws =
          some { c with message_timestamps := c.message_timestamps ++ ts } := hrun.2
      have hkeep : (c.message_timestamps ++ ts).dropWhile
          (fun x => decide (x < t31 - WS_RATE_WINDOW_SECONDS)) =
          c.message_timestamps ++ ts := by
        apply dropWhile_eq_self_of_all
        intro x hx
        rw [hemp] at hx
        simp only [List.nil_append] at hx
        simp only [decide_eq_false_iff_not, not_lt]
        exact h31 x hx
      have := allow_denied (rate_run ws m ts).1 ws
        { c with message_timestamps := c.message_timestamps ++ ts }
        MAX_WS_MESSAGES_PER_WINDOW WS_RATE_WINDOW_SECONDS t31 hcfull
        (by rw [hkeep, hemp]; simp [hts])
      rw [this]
    · intro tl hl
      have hcfull : aget (rate_run ws m ts).1.connections ws =
          some { c with message_timestamps := c.message_timestamps ++ ts } := hrun.2
      have hnil : (c.message_timestamps ++ ts).dropWhile
          (fun x => decide (x < tl - WS_RATE_WINDOW_SECONDS)) = [] := by
        apply dropWhile_eq_nil_of_all
        intro x hx
        rw [hemp] at hx
        simp only [List.nil_append] at hx
        simp only [decide_eq_true_eq]
        exact hl x hx
      have := allow_granted (rate_run ws m ts).1 ws
        { c with message_timestamps := c.message_timestamps ++ ts }
        MAX_WS_MESSAGES_PER_WINDOW WS_RATE_WINDOW_SECONDS tl hcfull
        (by rw [hnil]; simp [MAX_WS_MESSAGES_PER_WINDOW])
      rw [this]

/-- Witness for C7 at a concrete registered connection. -/
theorem sliding_window_rate_guard_witness :
    aget ({ connections := [(7, ⟨1, [], []⟩)],
            conversation_subscriptions := fun _ => none } : WebSocketManager).connections 7 =
      some ⟨1, [], []⟩ ∧
    rate_guard_claim
      { connections := [(7, ⟨1, [], []⟩)], conversation_subscriptions := fun _ => none }
      7 ⟨1, [], []⟩ :=
  ⟨by decide, sliding_window_rate_guard _ 7 _ (by decide)⟩

/-! ## C6: subscription cap enforcement -/

theorem get_count_some (m : WebSocketManager) (ws : Nat) (c : Connection)
    (hc : aget m.connections ws = some c) :
    m.get_subscription_count ws = c.subscribed_conversations.length := by
  unfold WebSocketManager.get_subscription_count
  simp only [hc]

theorem get_count_none (m : WebSocketManager) (ws : Nat)
    (hc : aget m.connections ws = none) :
    m.get_subscription_count ws = 0 := by
  unfold WebSocketManager.get_subscription_count
  simp only [hc]

theorem get_count_congr (m1 m2 : WebSocketManager) (w : Nat)
    (h : aget m1.connections w = aget m2.connections w) :
    m1.get_subscription_count w = m2.get_subscription_count w := by
  unfold WebSocketManager.get_subscription_count
  rw [h]

theorem subscribe_conns_other (m : WebSocketManager) (ws cid w : Nat)
    (hw : w ≠ ws) :
    aget (m.subscribe_to_conversation ws cid).connections w =
      aget m.connections w := by
  cases hc : aget m.connections ws with
  | none => rw [subscribe_none m ws cid hc]
  | some c => rw [subscribe_conns m ws cid c hc, if_neg hw]

theorem count_subscribe_le (m : WebSocketManager) (ws cid : Nat) :
    (m.subscribe_to_conversation ws cid).get_subscription_count ws ≤
      m.get_subscription_count ws + 1 := by
  cases hc : aget m.connections ws with
  | none =>
      rw [subscribe_none m ws cid hc]
      omega
  | some c =>
      rw [get_count_some m ws c hc]
      have hc2 := subscribe_conns m ws cid c hc ws
      rw [if_pos rfl] at hc2
      rw [get_count_some _ ws _ hc2]
      show (setAdd c.subscribed_conversations cid).length ≤ _
      unfold setAdd
      by_cases h : cid ∈ c.subscribed_conversations <;> simp [h]

theorem count_subscribe_already (m : WebSocketManager) (ws cid : Nat)
    (c : Connection) (hc : aget m.connections ws = some c)
    (hmem : cid ∈ c.subscribed_conversations) :
    (m.subscribe_to_conversation ws cid).get_subscription_count ws =
      m.get_subscription_count ws := by
  rw [get_count_some m ws c hc]
  have hc2 := subscribe_conns m ws cid c hc ws
  rw [if_pos rfl] at hc2
  rw [get_count_some _ ws _ hc2]
  show (setAdd c.subscribed_conversations cid).length = _
  unfold setAdd
  simp [hmem]

theorem subscribe_user_loop_count (ws : Nat) (slots : Int) :
    ∀ (rows : List Nat) (m : WebSocketManager) (n : Nat),
    ((subscribe_user_loop ws slots m rows n).1.get_subscription_count ws : Int) ≤
      (m.get_subscription_count ws : Int) + max 0 (slots - (n : Int)) := by
  intro rows
  induction rows with
  | nil =>
      intro m n
      rw [subscribe_user_loop]
      simp only []
      have : (0 : Int) ≤ max 0 (slots - (n : Int)) := le_max_left 0 _
      omega
  | cons cid rest ih =>
      intro m n
      rw [subscribe_user_loop]
      by_cases hslots : slots ≤ (n : Int)
      · rw [if_pos hslots]
        simp only []
        have : (0 : Int) ≤ max 0 (slots - (n : Int)) := le_max_left 0 _
        omega
      · rw [if_neg hslots]
        by_cases hsub : m.is_subscribed_to_conversation ws cid
        · rw [if_pos hsub]
          have := ih m n
          omega
        · rw [if_neg hsub]
          have h1 := ih (m.subscribe_to_conversation ws cid) (n + 1)
          have h2 := count_subscribe_le m ws cid
          have h3 : max 0 (slots - ((n + 1 : Nat) : Int)) + 1 ≤
              max 0 (slots - (n : Int)) := by
            push_cast
            omega
          omega

theorem subscribe_user_loop_other (ws : Nat) (slots : Int) :
    ∀ (rows : List Nat) (m : WebSocketManager) (n : Nat) (w : Nat), w ≠ ws →
    aget (subscribe_user_loop ws slots m rows n).1.connections w =
      aget m.connections w := by
  intro rows
  induction rows with
  | nil =>
      intro m n w _
      rw [subscribe_user_loop]
  | cons cid rest ih =>
      intro m n w hw
      rw [subscribe_user_loop]
      by_cases hslots : slots ≤ (n : Int)
      · rw [if_pos hslots]
      · rw [if_neg hslots]
        by_cases hsub : m.is_subscribed_to_conversation ws cid
        · rw [if_pos hsub]
          exact ih m n w hw
        · rw [if_neg hsub]
          rw [ih _ _ w hw]
          exact subscribe_conns_other m ws cid w hw

/-- **C6**: the per-connection subscription cap of 500 is enforced by
`handle_subscribe` and `handle_subscribe_user`. -/
theorem subscription_cap_enforced (db : DB) (m : WebSocketManager) (ws uid : Nat) :
    subscription_cap_claim db m ws uid := by
  refine ⟨?_, ?_, ?_⟩
  · intro cid w hb
    unfold handle_subscribe
    by_cases h1 : m.is_subscribed_to_conversation ws cid = false ∧
        MAX_WS_SUBSCRIPTIONS_PER_CONNECTION ≤ m.get_subscription_count ws
    · rw [if_pos h1]
      exact hb
    · rw [if_neg h1]
      by_cases h2 : (aget db.conversations cid).isNone
      · rw [if_pos h2]
        exact hb
      · rw [if_neg h2]
        by_cases h3 : (cid, uid) ∉ db.participants
        · rw [if_pos h3]
          exact hb
        · rw [if_neg h3]
          simp only []
          by_cases hw : w = ws
          · rw [hw] at hb ⊢
            cases hc : aget m.connections ws with
            | none =>
                rw [subscribe_none m ws cid hc]
                exact hb
            | some c =>
                by_cases hmem : cid ∈ c.subscribed_conversations
                · rw [count_subscribe_already m ws cid c hc hmem]
                  exact hb
                · push_neg at h1
                  have hsub : m.is_subscribed_to_conversation ws cid = false := by
                    unfold WebSocketManager.is_subscribed_to_conversation
                    simp only [hc]
                    simp [hmem]
                  have hlt := h1 hsub
                  have h4 := count_subscribe_le m ws cid
                  omega
          · have hother := subscribe_conns_other m ws cid w hw
            rw [get_count_congr _ m w hother]
            exact hb
  · intro w hb
    unfold handle_subscribe_user
    by_cases h1 : (MAX_WS_SUBSCRIPTIONS_PER_CONNECTION : Int) -
        (m.get_subscription_count ws : Int) ≤ 0
    · rw [if_pos h1]
      exact hb
    · rw [if_neg h1]
      simp only []
      by_cases hw : w = ws
      · rw [hw] at hb ⊢
        have hloop := subscribe_user_loop_count ws
          ((MAX_WS_SUBSCRIPTIONS_PER_CONNECTION : Int) - (m.get_subscription_count ws : Int))
          ((db.participants.filter (fun p => decide (p.2 = uid))).map Prod.fst) m 0
        have hmax : max 0 ((MAX_WS_SUBSCRIPTIONS_PER_CONNECTION : Int) -
            (m.get_subscription_count ws : Int) - ((0 : Nat) : Int)) =
            (MAX_WS_SUBSCRIPTIONS_PER_CONNECTION : Int) -
            (m.get_subscription_count ws : Int) := by
          rw [max_eq_right]
          · simp
          · simp only [Nat.cast_zero, sub_zero]
            omega
        rw [hmax] at hloop
        omega
      · have hother := subscribe_user_loop_other ws
          ((MAX_WS_SUBSCRIPTIONS_PER_CONNECTION : Int) - (m.get_subscription_count ws : Int))
          ((db.participants.filter (fun p => decide (p.2 = uid))).map Prod.fst) m 0 w hw
        rw [get_count_congr _ m w hother]
        exact hb
  · intro cid hsub hcap
    unfold handle_subscribe
    rw [if_pos ⟨hsub, hcap⟩]

/-- Witness for C6 at a concrete database and registry. -/
theorem subscription_cap_enforced_witness :
    subscription_cap_claim
      { conversations := [(5, ConvKind.direct)], participants := [(5, 1)],
        groups := [], group_members := [], messages := [],
        message_user_state := [], next_message_id := 0 }
      { connections := [(7, ⟨1, [5], []⟩)], conversation_subscriptions := fun _ => none }
      7 1 :=
  subscription_cap_enforced _ _ 7 1

/-! ## C2: `send_to_user` delivers to all of a user's connections -/

/-- **C2**: `SendToUser(u, m)` reaches every currently-registered
connection whose authenticated user is `u`, regardless of subscriptions. -/
theorem send_to_user_delivers_to_all_user_connections
    (m : WebSocketManager) (u : Nat) (f : Frame) :
    send_to_user_claim m u f := by
  refine ⟨?_, ?_, rfl, ?_, ?_⟩
  · intro ws c hmem hu
    unfold WebSocketManager.send_to_user
    rw [List.mem_map]
    refine ⟨(ws, c), ?_, rfl⟩
    rw [List.mem_filter]
    exact ⟨hmem, by simpa using hu⟩
  · intro ws hws
    unfold WebSocketManager.send_to_user at hws
    rw [List.mem_map] at hws
    obtain ⟨p, hp, hfst⟩ := hws
    rw [List.mem_filter] at hp
    refine ⟨p.2, ?_, by simpa using hp.2⟩
    rw [← hfst]
    exact hp.1
  · intro g
    unfold resubscribe_all WebSocketManager.send_to_user
    rw [List.filter_map, List.map_map]
    rfl
  · intro db now e he
    unfold process_due_message_expiry at he
    simp only [List.mem_append] at he
    rcases he with he | he
    · rw [List.mem_filterMap] at he
      obtain ⟨r, _, hr⟩ := he
      rw [Option.map_eq_some'] at hr
      obtain ⟨mr, _, hmr⟩ := hr
      exact ⟨r.user_id, _, hmr.symm⟩
    · rw [List.mem_filterMap] at he
      obtain ⟨r, _, hr⟩ := he
      rw [Option.map_eq_some'] at hr
      obtain ⟨mr, _, hmr⟩ := hr
      exact ⟨mr.sender_id, _, hmr.symm⟩

/-- Witness for C2 at a concrete registry: two sockets of user 3 (with
different subscription states) and one of user 4. -/
theorem send_to_user_delivers_witness :
    send_to_user_claim
      { connections := [(1, ⟨3, [9], []⟩), (2, ⟨4, [], []⟩), (5, ⟨3, [], []⟩)],
        conversation_subscriptions := fun _ => none }
      3 Frame.pong :=
  send_to_user_delivers_to_all_user_connections _ 3 Frame.pong

/-! ## C4: group key epoch increments per membership operation -/

theorem aget_map_adjust {α : Type} (f : Nat → α → α) (l : List (Nat × α)) (k : Nat) :
    aget (l.map (fun p => (p.1, f p.1 p.2))) k = (aget l k).map (f k) := by
  induction l with
  | nil => rfl
  | cons p rest ih =>
      obtain ⟨k', v⟩ := p
      by_cases h : k' = k
      · subst h
        simp [aget]
      · simp [aget, h, ih]

theorem bump_epoch_eq (l : List (Nat × Int)) (g : Nat) :
    bump_epoch l g = l.map (fun p => (p.1, if p.1 = g then p.2 + 1 else p.2)) := by
  unfold bump_epoch
  apply List.map_congr_left
  intro p _
  by_cases h : p.1 = g <;> simp [h]

theorem aget_bump_epoch (l : List (Nat × Int)) (g k : Nat) :
    aget (bump_epoch l g) k =
      if k = g then (aget l k).map (fun e => e + 1) else aget l k := by
  rw [bump_epoch_eq, aget_map_adjust (fun x e => if x = g then e + 1 else e) l k]
  by_cases h : k = g
  · simp [h]
  · simp [h]

theorem apply_group_op_epoch (db : DB) (g : Nat) (op : GroupOp) (db' : DB)
    (h : apply_group_op db g op = some db') (e : Int)
    (he : aget db.groups g = some e) :
    aget db'.groups g = some (e + 1) := by
  cases op with
  | addMember uid role =>
      simp only [apply_group_op] at h
      unfold add_group_member at h
      rw [he] at h
      simp only [Option.isNone_some] at h
      rw [if_neg Bool.false_ne_true] at h
      by_cases hg : active_role db g uid = some "owner" ∧ role ≠ "owner" ∧
          owner_count db g ≤ 1
      · rw [if_pos hg] at h
        cases h
      · rw [if_neg hg] at h
        cases h
        show aget (bump_epoch db.groups g) g = some (e + 1)
        rw [aget_bump_epoch, if_pos rfl, he]
        rfl
  | removeMember actor member now =>
      simp only [apply_group_op] at h
      unfold remove_group_member at h
      rw [he] at h
      simp only [Option.isNone_some] at h
      rw [if_neg Bool.false_ne_true] at h
      by_cases hg : member = actor ∧ owner_count db g ≤ 1
      · rw [if_pos hg] at h
        cases h
      · rw [if_neg hg] at h
        cases h
        show aget (bump_epoch db.groups g) g = some (e + 1)
        rw [aget_bump_epoch, if_pos rfl, he]
        rfl

theorem run_group_ops_ok_epoch (g : Nat) :
    ∀ (ops : List GroupOp) (db : DB) (e0 : Int),
    aget db.groups g = some e0 → group_ops_ok g db ops = true →
    aget (run_group_ops g db ops).groups g = some (e0 + ops.length) := by
  intro ops
  induction ops with
  | nil =>
      intro db e0 he _
      rw [run_group_ops]
      simpa using he
  | cons op rest ih =>
      intro db e0 he hok
      rw [run_group_ops]
      unfold group_ops_ok at hok
      cases hap : apply_group_op db g op with
      | none => rw [hap] at hok; cases hok
      | some db' =>
          rw [hap] at hok
          have he' := apply_group_op_epoch db g op db' hap e0 he
          simp only [Option.getD_some]
          have := ih db' (e0 + 1) he' hok
          rw [this]
          congr 1
          simp only [List.length_cons]
          push_cast
          ring

theorem run_group_ops_mono (g : Nat) :
    ∀ (ops : List GroupOp) (db : DB) (e0 : Int),
    aget db.groups g = some e0 →
    ∃ e, aget (run_group_ops g db ops).groups g = some e ∧ e0 ≤ e := by
  intro ops
  induction ops with
  | nil =>
      intro db e0 he
      rw [run_group_ops]
      exact ⟨e0, he, le_refl e0⟩
  | cons op rest ih =>
      intro db e0 he
      rw [run_group_ops]
      cases hap : apply_group_op db g op with
      | none =>
          simp only [Option.getD_none]
          exact ih db e0 he
      | some db' =>
          simp only [Option.getD_some]
          have he' := apply_group_op_epoch db g op db' hap e0 he
          obtain ⟨e, hrun, hle⟩ := ih db' (e0 + 1) he'
          exact ⟨e, hrun, by omega⟩

/-- **C4**: every completed membership-changing operation (member add,
member remove, role change via the member upsert) increments the group's
key epoch by exactly 1 in the same transaction, so after K completed
operations the epoch is the initial value plus K, and the epoch never
decreases along any run. -/
theorem group_epoch_increments_per_membership_op (g : Nat) (db : DB)
    (e0 : Int) (he : aget db.groups g = some e0) :
    group_epoch_claim g db e0 :=
  ⟨fun ops hok => run_group_ops_ok_epoch g ops db e0 he hok,
   fun ops => run_group_ops_mono g ops db e0 he,
   fun db2 op db3 e hap he2 => apply_group_op_epoch db2 g op db3 hap e he2⟩

/-- Witness for C4: a group at epoch 1, one member add, one role change
and one removal — the epoch lands at 4. -/
theorem group_epoch_increments_witness :
    aget ({ conversations := [(9, ConvKind.group)], participants := [(9, 1)],
            groups := [(9, 1)],
            group_members := [{ group_id := 9, user_id := 1, role := "owner",
                                removed_at := none }],
            messages := [], message_user_state := [],
            next_message_id := 0 } : DB).groups 9 = some 1 ∧
    group_epoch_claim 9
      { conversations := [(9, ConvKind.group)], participants := [(9, 1)],
        groups := [(9, 1)],
        group_members := [{ group_id := 9, user_id := 1, role := "owner",
                            removed_at := none }],
        messages := [], message_user_state := [], next_message_id := 0 } 1 :=
  ⟨by decide, group_epoch_increments_per_membership_op 9 _ 1 (by decide)⟩

/-! ## C8: defense engine, ip_temp policy -/

theorem check_ip_blocked_none (db : DefenseDB) (ip : Nat) (now : Int)
    (hb : aget db.blocked_ips ip = none) :
    check_ip_blocked db ip now = (false, db) := by
  unfold check_ip_blocked
  simp only [hb]

theorem get_failure_count_of_clean_below (ip : Nat) (db : DefenseDB) (c : Nat)
    (h : clean_below ip db c) : get_failure_count db ip = c := by
  unfold get_failure_count
  rcases h.2 with ⟨ha, hc⟩ | ⟨fr, ha, hc⟩
  · rw [ha, hc]
  · rw [ha]
    exact hc

theorem record_failure_eq_none (db : DefenseDB) (ip : Nat) (now : Int)
    (ha : aget db.auth_failures ip = none) :
    record_failure db ip now =
      ((MAX_AUTH_FAILURES : Int) - 1,
       { db with auth_failures := aset db.auth_failures ip ⟨1, now, now⟩ }) := by
  unfold record_failure
  rw [if_neg (by simp [PANIC_MODE])]
  simp only [ha]
  unfold get_failure_count
  rw [aget_aset_self]
  rfl

theorem record_failure_eq_some (db : DefenseDB) (ip : Nat) (now : Int)
    (fr : AuthFailureRow) (ha : aget db.auth_failures ip = some fr) :
    record_failure db ip now =
      ((MAX_AUTH_FAILURES : Int) - ((fr.failure_count + 1 : Nat) : Int),
       { db with auth_failures := aset db.auth_failures ip ⟨fr.failure_count + 1, fr.first_failure_at, now⟩ }) := by
  unfold record_failure
  rw [if_neg (by simp [PANIC_MODE])]
  simp only [ha]
  unfold get_failure_count
  rw [aget_aset_self]

theorem block_ip_temporary_none (db : DefenseDB) (ip : Nat) (now : Int)
    (hb : aget db.blocked_ips ip = none) :
    block_ip_temporary db ip now =
      { blocked_ips := aset db.blocked_ips ip
          ⟨now, some (now + 60 * IP_BLOCK_MINUTES), "auth_failure_threshold"⟩,
        auth_failures := adel db.auth_failures ip } := by
  unfold block_ip_temporary reset_failures
  simp only [hb]

theorem verify_vault_fail_below (db : DefenseDB) (ip : Nat) (c : Nat) (t : Int)
    (h : clean_below ip db c) (hc : c + 1 < MAX_AUTH_FAILURES) :
    clean_below ip (verify_vault_defense db ip true false t) (c + 1) := by
  unfold verify_vault_defense
  rw [if_neg (by simp)]
  rw [check_ip_blocked_none db ip t h.1]
  simp only [Bool.false_eq_true, if_false]
  rcases h.2 with ⟨ha, hc0⟩ | ⟨fr, ha, hcnt⟩
  · rw [record_failure_eq_none db ip t ha]
    simp only []
    rw [if_neg (by simp only [MAX_AUTH_FAILURES]; omega)]
    refine ⟨h.1, Or.inr ⟨⟨1, t, t⟩, aget_aset_self _ _ _, ?_⟩⟩
    simp [hc0]
  · rw [record_failure_eq_some db ip t fr ha]
    simp only []
    rw [if_neg (by
      simp only [MAX_AUTH_FAILURES] at hc ⊢
      rw [hcnt] at *
      push_cast
      omega)]
    refine ⟨h.1, Or.inr ⟨⟨fr.failure_count + 1, fr.first_failure_at, t⟩,
      aget_aset_self _ _ _, ?_⟩⟩
    simp [hcnt]

theorem verify_vault_fail_trigger (db : DefenseDB) (ip : Nat) (c : Nat) (t : Int)
    (h : clean_below ip db c) (hc : c + 1 = MAX_AUTH_FAILURES) :
    aget (verify_vault_defense db ip true false t).blocked_ips ip =
      some { blocked_at := t, expires_at := some (t + 60 * IP_BLOCK_MINUTES),
             reason := "auth_failure_threshold" } ∧
    aget (verify_vault_defense db ip true false t).auth_failures ip = none := by
  unfold verify_vault_defense
  rw [if_neg (by simp)]
  rw [check_ip_blocked_none db ip t h.1]
  simp only [Bool.false_eq_true, if_false]
  have hfin : ∀ db1 : DefenseDB, aget db1.blocked_ips ip = none →
      aget (trigger_policy db1 ip t).blocked_ips ip =
        some { blocked_at := t, expires_at := some (t + 60 * IP_BLOCK_MINUTES),
               reason := "auth_failure_threshold" } ∧
      aget (trigger_policy db1 ip t).auth_failures ip = none := by
    intro db1 hb1
    unfold trigger_policy
    rw [if_pos (show FAILURE_MODE = "ip_temp" from rfl)]
    rw [block_ip_temporary_none db1 ip t hb1]
    exact ⟨aget_aset_self _ _ _, aget_adel_self _ _⟩
  rcases h.2 with ⟨ha, hc0⟩ | ⟨fr, ha, hcnt⟩
  · rw [record_failure_eq_none db ip t ha]
    simp only []
    rw [if_pos (by
      simp only [MAX_AUTH_FAILURES] at hc
      omega)]
    exact hfin _ h.1
  · rw [record_failure_eq_some db ip t fr ha]
    simp only []
    rw [if_pos (by
      rw [hcnt] at *
      simp only [MAX_AUTH_FAILURES] at hc ⊢
      push_cast
      omega)]
    exact hfin _ h.1

theorem verify_vault_success_resets (db : DefenseDB) (ip : Nat) (t : Int)
    (hb : aget db.blocked_ips ip = none) :
    aget (verify_vault_defense db ip true true t).auth_failures ip = none := by
  unfold verify_vault_defense
  rw [if_neg (by simp)]
  rw [check_ip_blocked_none db ip t hb]
  simp only [Bool.false_eq_true, if_false, if_true]
  unfold reset_failures
  exact aget_adel_self _ _

theorem fail_times_below (ip : Nat) :
    ∀ (ts : List Int) (db : DefenseDB) (c : Nat), clean_below ip db c →
    c + ts.length < MAX_AUTH_FAILURES →
    clean_below ip (fail_times ip db ts) (c + ts.length) := by
  intro ts
  induction ts with
  | nil =>
      intro db c h _
      rw [fail_times]
      simpa using h
  | cons t rest ih =>
      intro db c h hlen
      rw [fail_times]
      have hstep := verify_vault_fail_below db ip c t h
        (by simp only [List.length_cons] at hlen; omega)
      have := ih (verify_vault_defense db ip true false t) (c + 1) hstep
        (by simp only [List.length_cons] at hlen ⊢; omega)
      simp only [List.length_cons]
      have harith : c + (rest.length + 1) = c + 1 + rest.length := by omega
      rw [harith]
      exact this

/-- **C8**: with `FAILURE_MODE = ip_temp` and `PANIC_MODE` off, a clean
IP is blocked exactly at the `MAX_AUTH_FAILURES`-th recorded failure,
with a non-null expiry of now plus the configured minutes, and the
failure record is cleared; a success before the threshold resets the
count to zero. -/
theorem defense_ip_temp_threshold (ip : Nat) (db : DefenseDB)
    (hb : aget db.blocked_ips ip = none)
    (ha : aget db.auth_failures ip = none) :
    defense_claim ip db := by
  have hclean : clean_below ip db 0 := ⟨hb, Or.inl ⟨ha, rfl⟩⟩
  refine ⟨?_, ?_, ?_⟩
  · intro ts hlen
    have := fail_times_below ip ts db 0 hclean (by omega)
    simp only [Nat.zero_add] at this
    exact ⟨this.1, get_failure_count_of_clean_below ip _ _ this⟩
  · intro ts hlen t5
    have hrun := fail_times_below ip ts db 0 hclean (by omega)
    simp only [Nat.zero_add] at hrun
    exact verify_vault_fail_trigger _ ip ts.length t5 hrun hlen
  · intro ts hlen t
    have hrun := fail_times_below ip ts db 0 hclean (by omega)
    simp only [Nat.zero_add] at hrun
    exact verify_vault_success_resets _ ip t hrun.1

/-- Witness for C8 at a concrete empty defense state. -/
theorem defense_ip_temp_threshold_witness :
    aget ({ blocked_ips := [], auth_failures := [] } : DefenseDB).blocked_ips 42 = none ∧
    aget ({ blocked_ips := [], auth_failures := [] } : DefenseDB).auth_failures 42 = none ∧
    defense_claim 42 { blocked_ips := [], auth_failures := [] } :=
  ⟨by decide, by decide, defense_ip_temp_threshold 42 _ (by decide) (by decide)⟩

/-! ## C3: stale group epoch rejection -/

/-- **C3 (amended)**: mismatched client group epochs are rejected with
`stale_group_epoch` (epochs below 1 with `invalid_group_epoch`), and the
message is neither inserted nor broadcast. -/
theorem group_epoch_mismatch_rejected (db : DB) (m : WebSocketManager)
    (ws uid cid : Nat) (rid cmid : Option Nat) (g : Int) (cb ivb : List Nat)
    (now : Int) :
    stale_epoch_claim db m ws uid cid rid cmid g cb ivb now := by
  constructor
  · intro e hg hcb hiv hpart hkind hepoch hne m1 hrate
    have e1 : decide (g < 1) = false := decide_eq_false (by omega)
    have hcheck : group_epoch_check db cid (some g) = none := by
      unfold group_epoch_check
      rw [if_pos hkind, hepoch]
      simp only []
      rw [if_neg (fun h => hne h.symm)]
    unfold handle_message
    simp only [e1, Bool.false_eq_true, if_false, hrate]
    rw [if_neg (by simp)]
    rw [if_neg (by omega)]
    rw [if_neg (by omega)]
    rw [if_neg (by
      intro hcontra
      exact hcontra.1 hpart)]
    rw [if_pos hpart]
    rw [hcheck]
    simp only []
    rw [if_neg (by rw [hepoch]; simp)]
  · intro hglt
    have e1 : decide (g < 1) = true := decide_eq_true hglt
    unfold handle_message
    simp only [e1, if_true]

/-- Witness for C3 (amended) at a concrete group state. -/
theorem group_epoch_mismatch_witness :
    stale_epoch_claim
      { conversations := [(1, ConvKind.group)], participants := [(1, 2)],
        groups := [(1, 2)], group_members := [], messages := [],
        message_user_state := [], next_message_id := 0 }
      { connections := [(3, ⟨2, [], []⟩)], conversation_subscriptions := fun _ => none }
      3 2 1 none (some 9) 1 [1] (List.replicate 12 0) 0 :=
  group_epoch_mismatch_rejected _ _ 3 2 1 none (some 9) 1 [1] (List.replicate 12 0) 0

/-- Counterexample to C3 as stated: a group at current epoch 2 and a
client-supplied epoch 0 — strictly less than the current epoch — is
answered with `invalid_group_epoch`, not `stale_group_epoch`. -/
theorem stale_epoch_claim_counterexample :
    handle_message
      { conversations := [(1, ConvKind.group)], participants := [(1, 2)],
        groups := [(1, 2)], group_members := [], messages := [],
        message_user_state := [], next_message_id := 0 }
      { connections := [(3, ⟨2, [], []⟩)], conversation_subscriptions := fun _ => none }
      3 2 ⟨some 1, none, none, some 0, none, some [1], some (List.replicate 12 0)⟩ 0 =
      ({ conversations := [(1, ConvKind.group)], participants := [(1, 2)],
         groups := [(1, 2)], group_members := [], messages := [],
         message_user_state := [], next_message_id := 0 },
       { connections := [(3, ⟨2, [], []⟩)], conversation_subscriptions := fun _ => none },
       [Event.personal 3 (Frame.errorFrame "invalid_group_epoch" "Invalid group_epoch" none)]) ∧
    (0 : Int) < 2 ∧
    Frame.errorFrame "invalid_group_epoch" "Invalid group_epoch" none ≠
      Frame.errorFrame "stale_group_epoch" "stale_group_epoch" none := by
  refine ⟨rfl, by norm_num, by decide⟩


/-! ## C10: double message_seen is idempotent -/

theorem find?_map_pres {α : Type} (f : α → α) (p : α → Bool) (l : List α)
    (hp : ∀ x, p (f x) = p x) : (l.map f).find? p = (l.find? p).map f := by
  induction l with
  | nil => rfl
  | cons a as ih =>
      simp only [List.map_cons, List.find?_cons]
      rw [hp a]
      cases hpa : p a
      · simpa using ih
      · rfl

theorem find?_ne_none_of_exists {α : Type} {l : List α} {p : α → Bool}
    (h : ∃ x ∈ l, p x = true) : l.find? p ≠ none := by
  obtain ⟨x, hx, hpx⟩ := h
  intro hnone
  rw [List.find?_eq_none] at hnone
  exact hnone x hx hpx

theorem mark_mark (mid uid : Nat) (t t2 : Int) (r : MessageUserState) :
    mark_seen_row mid uid t2 (mark_seen_row mid uid t r) = mark_seen_row mid uid t r := by
  obtain ⟨mi, ui, se, sa, da, de⟩ := r
  unfold mark_seen_row
  by_cases h : mi = mid ∧ ui = uid ∧ se = false
  · simp only [if_pos h]
    cases sa <;> rfl
  · simp only [if_neg h]

theorem sdar_sdar (mid uid : Nat) (tt : Int) (r : MessageUserState) :
    set_delete_after_row mid uid tt (set_delete_after_row mid uid tt r) =
      set_delete_after_row mid uid tt r := by
  obtain ⟨mi, ui, se, sa, da, de⟩ := r
  unfold set_delete_after_row
  by_cases h : mi = mid ∧ ui = uid
  · simp only [if_pos h]
    cases da <;> cases sa <;> rfl
  · simp only [if_neg h]

theorem mark_sdar (mid uid : Nat) (t t2 tt : Int) (r : MessageUserState) :
    mark_seen_row mid uid t2
      (set_delete_after_row mid uid tt (mark_seen_row mid uid t r)) =
      set_delete_after_row mid uid tt (mark_seen_row mid uid t r) := by
  obtain ⟨mi, ui, se, sa, da, de⟩ := r
  unfold mark_seen_row set_delete_after_row
  by_cases h1 : mi = mid ∧ ui = uid ∧ se = false
  · simp only [if_pos h1, if_pos (show mi = mid ∧ ui = uid from ⟨h1.1, h1.2.1⟩)]
    cases sa <;> cases da <;> rfl
  · simp only [if_neg h1]
    by_cases h2 : mi = mid ∧ ui = uid
    · simp only [if_pos h2]
      rw [if_neg h1]
    · simp only [if_neg h2, if_neg h1]

theorem ssdar_ssdar (mid : Nat) (v : Option Int) (mr : MessageRow) :
    set_sender_delete_after mid v (set_sender_delete_after mid v mr) =
      set_sender_delete_after mid v mr := by
  obtain ⟨i, ci, si, ct, iv, ge, ea, sd, sdd, ca⟩ := mr
  unfold set_sender_delete_after
  by_cases h : i = mid
  · simp only [if_pos h]
    cases sd <;> cases v <;> rfl
  · simp only [if_neg h]

theorem ssdar_fields (mid : Nat) (v : Option Int) (mr : MessageRow) :
    (set_sender_delete_after mid v mr).id = mr.id ∧
    (set_sender_delete_after mid v mr).conversation_id = mr.conversation_id ∧
    (set_sender_delete_after mid v mr).sender_id = mr.sender_id ∧
    (set_sender_delete_after mid v mr).expires_after_seen_sec = mr.expires_after_seen_sec := by
  unfold set_sender_delete_after
  by_cases h : mr.id = mid <;> simp [h]

theorem mark_fields (mid uid : Nat) (t : Int) (r : MessageUserState) :
    (mark_seen_row mid uid t r).message_id = r.message_id ∧
    (mark_seen_row mid uid t r).user_id = r.user_id ∧
    (mark_seen_row mid uid t r).is_sender = r.is_sender := by
  unfold mark_seen_row
  by_cases h : r.message_id = mid ∧ r.user_id = uid ∧ r.is_sender = false <;> simp [h]

theorem sdar_fields (mid uid : Nat) (tt : Int) (r : MessageUserState) :
    (set_delete_after_row mid uid tt r).message_id = r.message_id ∧
    (set_delete_after_row mid uid tt r).user_id = r.user_id ∧
    (set_delete_after_row mid uid tt r).is_sender = r.is_sender ∧
    (set_delete_after_row mid uid tt r).seen_at = r.seen_at := by
  unfold set_delete_after_row
  by_cases h : r.message_id = mid ∧ r.user_id = uid <;> simp [h]



theorem handle_message_seen_success (db : DB) (ws uid mid cid : Nat) (now : Int)
    (msgRow : MessageRow)
    (h1 : (aget db.conversations cid).isNone = false)
    (h2 : (cid, uid) ∈ db.participants)
    (h3 : db.messages.find? (fun r => decide (r.id = mid ∧ r.conversation_id = cid)) =
      some msgRow)
    (h4 : ¬ msgRow.sender_id = uid)
    (h5 : (db.message_user_state.map (mark_seen_row mid uid now)).find?
        (fun r => decide (r.message_id = mid ∧ r.user_id = uid ∧ r.is_sender = false)) ≠
        none) :
    (handle_message_seen db ws uid (some mid) (some cid) now).1 =
      { db with
        message_user_state := (seen_ttl_step
          (db.message_user_state.map (mark_seen_row mid uid now)) db.messages mid uid
          msgRow.expires_after_seen_sec).1,
        messages := (seen_ttl_step
          (db.message_user_state.map (mark_seen_row mid uid now)) db.messages mid uid
          msgRow.expires_after_seen_sec).2 } := by
  obtain ⟨seenRow, hseen⟩ := Option.ne_none_iff_exists'.mp h5
  unfold handle_message_seen
  simp only []
  rw [if_neg (by rw [h1]; simp)]
  rw [if_neg (by simpa using h2)]
  rw [h3]
  simp only []
  rw [if_neg h4, hseen]

theorem pu_mark (mid uid : Nat) (t : Int) (r : MessageUserState) :
    decide ((mark_seen_row mid uid t r).message_id = mid ∧
        (mark_seen_row mid uid t r).user_id = uid ∧
        (mark_seen_row mid uid t r).is_sender = false) =
      decide (r.message_id = mid ∧ r.user_id = uid ∧ r.is_sender = false) := by
  obtain ⟨f1, f2, f3⟩ := mark_fields mid uid t r
  simp only [f1, f2, f3]

theorem pu_sdar (mid uid : Nat) (tt : Int) (r : MessageUserState) :
    decide ((set_delete_after_row mid uid tt r).message_id = mid ∧
        (set_delete_after_row mid uid tt r).user_id = uid ∧
        (set_delete_after_row mid uid tt r).is_sender = false) =
      decide (r.message_id = mid ∧ r.user_id = uid ∧ r.is_sender = false) := by
  obtain ⟨f1, f2, f3, _⟩ := sdar_fields mid uid tt r
  simp only [f1, f2, f3]

theorem pm_ssdar (mid mid2 : Nat) (cid : Nat) (v : Option Int) (r : MessageRow) :
    decide ((set_sender_delete_after mid v r).id = mid2 ∧
        (set_sender_delete_after mid v r).conversation_id = cid) =
      decide (r.id = mid2 ∧ r.conversation_id = cid) := by
  obtain ⟨f1, f2, _, _⟩ := ssdar_fields mid v r
  simp only [f1, f2]

theorem map_mark_of_marked (mid uid : Nat) (t t2 : Int) (l : List MessageUserState) :
    (l.map (mark_seen_row mid uid t)).map (mark_seen_row mid uid t2) =
      l.map (mark_seen_row mid uid t) := by
  rw [List.map_map]
  apply List.map_congr_left
  intro r _
  exact mark_mark mid uid t t2 r

theorem map_mark_of_sdar (mid uid : Nat) (t t2 tt : Int) (l : List MessageUserState) :
    (((l.map (mark_seen_row mid uid t)).map (set_delete_after_row mid uid tt)).map
      (mark_seen_row mid uid t2)) =
      (l.map (mark_seen_row mid uid t)).map (set_delete_after_row mid uid tt) := by
  rw [List.map_map, List.map_map, List.map_map]
  apply List.map_congr_left
  intro r _
  exact mark_sdar mid uid t t2 tt r

theorem map_sdar_of_sdar (mid uid : Nat) (tt : Int) (l : List MessageUserState) :
    ((l.map (set_delete_after_row mid uid tt)).map (set_delete_after_row mid uid tt)) =
      l.map (set_delete_after_row mid uid tt) := by
  rw [List.map_map]
  apply List.map_congr_left
  intro r _
  exact sdar_sdar mid uid tt r

theorem map_ssdar_of_ssdar (mid : Nat) (v : Option Int) (l : List MessageRow) :
    ((l.map (set_sender_delete_after mid v)).map (set_sender_delete_after mid v)) =
      l.map (set_sender_delete_after mid v) := by
  rw [List.map_map]
  apply List.map_congr_left
  intro r _
  exact ssdar_ssdar mid v r

theorem seen_ttl_step_none (mus : List MessageUserState) (msgs : List MessageRow)
    (mid uid : Nat) : seen_ttl_step mus msgs mid uid none = (mus, msgs) := rfl

theorem seen_ttl_step_zero (mus : List MessageUserState) (msgs : List MessageRow)
    (mid uid : Nat) : seen_ttl_step mus msgs mid uid (some 0) = (mus, msgs) := rfl

theorem seen_ttl_step_pos_all (mus : List MessageUserState) (msgs : List MessageRow)
    (mid uid : Nat) (tt : Int) (h0 : ¬ tt = 0)
    (hall : all_recipients_seen (mus.map (set_delete_after_row mid uid tt)) mid) :
    seen_ttl_step mus msgs mid uid (some tt) =
      (mus.map (set_delete_after_row mid uid tt),
       msgs.map (set_sender_delete_after mid
        ((max_recipient_seen_at (mus.map (set_delete_after_row mid uid tt)) mid).map
          (fun s => s + tt)))) := by
  simp only [seen_ttl_step]
  rw [if_neg h0, if_pos hall]

theorem seen_ttl_step_pos_notall (mus : List MessageUserState) (msgs : List MessageRow)
    (mid uid : Nat) (tt : Int) (h0 : ¬ tt = 0)
    (hall : ¬ all_recipients_seen (mus.map (set_delete_after_row mid uid tt)) mid) :
    seen_ttl_step mus msgs mid uid (some tt) =
      (mus.map (set_delete_after_row mid uid tt), msgs) := by
  simp only [seen_ttl_step]
  rw [if_neg h0, if_neg hall]

/-- C10: marking the same message seen twice by the same recipient leaves the
database unchanged: the second `message_seen` call returns exactly the state
produced by the first, so the recipient's `seen_at` and `delete_after_seen_at`
and the message's `sender_delete_after_seen_at` keep their first-call values. -/
theorem message_seen_idempotent (db : DB) (ws ws2 uid mid cid : Nat) (t t2 : Int)
    (msgRow : MessageRow)
    (h1 : (aget db.conversations cid).isNone = false)
    (h2 : (cid, uid) ∈ db.participants)
    (h3 : db.messages.find? (fun r => decide (r.id = mid ∧ r.conversation_id = cid)) =
      some msgRow)
    (h4 : ¬ msgRow.sender_id = uid)
    (h5 : ∃ r ∈ db.message_user_state,
        r.message_id = mid ∧ r.user_id = uid ∧ r.is_sender = false) :
    (handle_message_seen (handle_message_seen db ws uid (some mid) (some cid) t).1
      ws2 uid (some mid) (some cid) t2).1 =
    (handle_message_seen db ws uid (some mid) (some cid) t).1 := by
  obtain ⟨r0, hr0mem, hr0⟩ := h5
  have hpu0 : decide (r0.message_id = mid ∧ r0.user_id = uid ∧ r0.is_sender = false) =
      true := decide_eq_true (by exact ⟨hr0.1, hr0.2.1, hr0.2.2⟩)
  have h5map1 : ((db.message_user_state.map (mark_seen_row mid uid t)).find?
      (fun r => decide (r.message_id = mid ∧ r.user_id = uid ∧ r.is_sender = false))) ≠
      none := by
    apply find?_ne_none_of_exists
    exact ⟨mark_seen_row mid uid t r0, List.mem_map_of_mem _ hr0mem,
      by rw [pu_mark]; exact hpu0⟩
  have hchar1 := handle_message_seen_success db ws uid mid cid t msgRow h1 h2 h3 h4 h5map1
  rw [hchar1]
  rcases hexp : msgRow.expires_after_seen_sec with _ | tt
  · -- ttl NULL: the TTL step leaves both tables alone
    rw [seen_ttl_step_none]
    simp only []
    have h5map2 : (((db.message_user_state.map (mark_seen_row mid uid t)).map
        (mark_seen_row mid uid t2)).find?
        (fun r => decide (r.message_id = mid ∧ r.user_id = uid ∧ r.is_sender = false))) ≠
        none := by
      rw [map_mark_of_marked]
      exact h5map1
    have hchar2 := handle_message_seen_success
      { db with
        message_user_state := db.message_user_state.map (mark_seen_row mid uid t),
        messages := db.messages }
      ws2 uid mid cid t2 msgRow h1 h2 h3 h4 h5map2
    rw [hchar2]
    simp only []
    rw [hexp, seen_ttl_step_none, map_mark_of_marked]
  · by_cases h0 : tt = 0
    · -- ttl = 0 is falsy in Python: same as NULL
      subst h0
      rw [seen_ttl_step_zero]
      simp only []
      have h5map2 : (((db.message_user_state.map (mark_seen_row mid uid t)).map
          (mark_seen_row mid uid t2)).find?
          (fun r => decide (r.message_id = mid ∧ r.user_id = uid ∧ r.is_sender = false))) ≠
          none := by
        rw [map_mark_of_marked]
        exact h5map1
      have hchar2 := handle_message_seen_success
        { db with
          message_user_state := db.message_user_state.map (mark_seen_row mid uid t),
          messages := db.messages }
        ws2 uid mid cid t2 msgRow h1 h2 h3 h4 h5map2
      rw [hchar2]
      simp only []
      rw [hexp, seen_ttl_step_zero, map_mark_of_marked]
    · have hfindB : (((db.message_user_state.map (mark_seen_row mid uid t)).map
          (set_delete_after_row mid uid tt)).find?
          (fun r => decide (r.message_id = mid ∧ r.user_id = uid ∧ r.is_sender = false))) ≠
          none := by
        apply find?_ne_none_of_exists
        refine ⟨set_delete_after_row mid uid tt (mark_seen_row mid uid t r0),
          List.mem_map_of_mem _ (List.mem_map_of_mem _ hr0mem), ?_⟩
        rw [pu_sdar, pu_mark]
        exact hpu0
      have h5mapB : ((((db.message_user_state.map (mark_seen_row mid uid t)).map
          (set_delete_after_row mid uid tt)).map (mark_seen_row mid uid t2)).find?
          (fun r => decide (r.message_id = mid ∧ r.user_id = uid ∧ r.is_sender = false))) ≠
          none := by
        rw [map_mark_of_sdar]
        exact hfindB
      by_cases hall : all_recipients_seen
          ((db.message_user_state.map (mark_seen_row mid uid t)).map
            (set_delete_after_row mid uid tt)) mid
      · rw [seen_ttl_step_pos_all _ _ _ _ _ h0 hall]
        simp only []
        have h3B : ((db.messages.map (set_sender_delete_after mid
            ((max_recipient_seen_at
              ((db.message_user_state.map (mark_seen_row mid uid t)).map
                (set_delete_after_row mid uid tt)) mid).map (fun s => s + tt)))).find?
            (fun r => decide (r.id = mid ∧ r.conversation_id = cid))) =
            some (set_sender_delete_after mid
              ((max_recipient_seen_at
                ((db.message_user_state.map (mark_seen_row mid uid t)).map
                  (set_delete_after_row mid uid tt)) mid).map (fun s => s + tt)) msgRow) := by
          rw [find?_map_pres _ _ _ (fun x => pm_ssdar mid mid cid _ x), h3]
          rfl
        have h4B : ¬ (set_sender_delete_after mid
            ((max_recipient_seen_at
              ((db.message_user_state.map (mark_seen_row mid uid t)).map
                (set_delete_after_row mid uid tt)) mid).map (fun s => s + tt))
              msgRow).sender_id = uid := by
          rw [(ssdar_fields _ _ _).2.2.1]
          exact h4
        have hexpB : (set_sender_delete_after mid
            ((max_recipient_seen_at
              ((db.message_user_state.map (mark_seen_row mid uid t)).map
                (set_delete_after_row mid uid tt)) mid).map (fun s => s + tt))
              msgRow).expires_after_seen_sec = some tt := by
          rw [(ssdar_fields _ _ _).2.2.2]
          exact hexp
        have hchar2 := handle_message_seen_success
          { db with
            message_user_state :=
              (db.message_user_state.map (mark_seen_row mid uid t)).map
                (set_delete_after_row mid uid tt),
            messages := db.messages.map (set_sender_delete_after mid
              ((max_recipient_seen_at
                ((db.message_user_state.map (mark_seen_row mid uid t)).map
                  (set_delete_after_row mid uid tt)) mid).map (fun s => s + tt))) }
          ws2 uid mid cid t2 _ h1 h2 h3B h4B h5mapB
        rw [hchar2]
        simp only []
        rw [hexpB, map_mark_of_sdar]
        have hall2 : all_recipients_seen
            ((((db.message_user_state.map (mark_seen_row mid uid t)).map
              (set_delete_after_row mid uid tt)).map (set_delete_after_row mid uid tt)))
            mid := by
          rw [map_sdar_of_sdar]
          exact hall
        rw [seen_ttl_step_pos_all _ _ _ _ _ h0 hall2]
        rw [map_sdar_of_sdar, map_ssdar_of_ssdar]
      · rw [seen_ttl_step_pos_notall _ _ _ _ _ h0 hall]
        simp only []
        have hchar2 := handle_message_seen_success
          { db with
            message_user_state :=
              (db.message_user_state.map (mark_seen_row mid uid t)).map
                (set_delete_after_row mid uid tt),
            messages := db.messages }
          ws2 uid mid cid t2 msgRow h1 h2 h3 h4 h5mapB
        rw [hchar2]
        simp only []
        rw [hexp, map_mark_of_sdar]
        have hall2 : ¬ all_recipients_seen
            ((((db.message_user_state.map (mark_seen_row mid uid t)).map
              (set_delete_after_row mid uid tt)).map (set_delete_after_row mid uid tt)))
            mid := by
          rw [map_sdar_of_sdar]
          exact hall
        rw [seen_ttl_step_pos_notall _ _ _ _ _ h0 hall2]
        rw [map_sdar_of_sdar]

/-! ## C9: seen-based expiry with two recipients -/

theorem db9_after_seen_eq (t1 t2 : Int) :
    db9_after_seen t1 t2 =
    { conversations := [(7, ConvKind.group)],
      participants := [(7, 1), (7, 2), (7, 3)],
      groups := [],
      group_members := [],
      messages := [{ id := 10, conversation_id := 7, sender_id := 1, ciphertext := [1],
                     iv := [2], group_epoch := none, expires_after_seen_sec := some 15,
                     sender_delete_after_seen_at := some (max t1 t2 + 15),
                     sender_deleted_at := none, created_at := 0 }],
      message_user_state :=
        [{ message_id := 10, user_id := 1, is_sender := true, seen_at := none,
           delete_after_seen_at := none, deleted_at := none },
         { message_id := 10, user_id := 2, is_sender := false, seen_at := some t1,
           delete_after_seen_at := some (t1 + 15), deleted_at := none },
         { message_id := 10, user_id := 3, is_sender := false, seen_at := some t2,
           delete_after_seen_at := some (t2 + 15), deleted_at := none }],
      next_message_id := 11 } := rfl


theorem db9_expiry (t1 t2 T : Int) (hT1 : t1 + 15 ≤ T) (hT2 : t2 + 15 ≤ T) :
    (process_due_message_expiry (db9_after_seen t1 t2) T).1.messages = [] ∧
    (process_due_message_expiry (db9_after_seen t1 t2) T).1.message_user_state = [] := by
  have hmax : max t1 t2 + 15 ≤ T := by
    rcases le_total t1 t2 with h | h
    · rw [max_eq_right h]; exact hT2
    · rw [max_eq_left h]; exact hT1
  rw [db9_after_seen_eq]
  simp [process_due_message_expiry, recipient_due, sender_due, sender_state_due,
    hard_delete_due, hT1, hT2, hmax]

/-- C9: for the `expires_after_seen_sec = 15` message with two recipients, each
recipient deadline is their seen time plus 15, the sender deadline is the
maximum seen time plus 15, and once every deadline has passed the expiry worker
removes the message row and every per-user state row. -/
theorem seen_based_expiry_schedule (t1 t2 T : Int)
    (hT1 : t1 + 15 ≤ T) (hT2 : t2 + 15 ≤ T) :
    seen_expiry_claim t1 t2 T := by
  obtain ⟨hm, hs⟩ := db9_expiry t1 t2 T hT1 hT2
  refine ⟨?_, ?_, ?_, hm, hs⟩
  · rw [db9_after_seen_eq]
    exact ⟨{ message_id := 10, user_id := 2, is_sender := false, seen_at := some t1,
             delete_after_seen_at := some (t1 + 15), deleted_at := none },
      by simp, rfl, rfl, rfl⟩
  · rw [db9_after_seen_eq]
    exact ⟨{ message_id := 10, user_id := 3, is_sender := false, seen_at := some t2,
             delete_after_seen_at := some (t2 + 15), deleted_at := none },
      by simp, rfl, rfl, rfl⟩
  · rw [db9_after_seen_eq]
    exact ⟨{ id := 10, conversation_id := 7, sender_id := 1, ciphertext := [1],
             iv := [2], group_epoch := none, expires_after_seen_sec := some 15,
             sender_delete_after_seen_at := some (max t1 t2 + 15),
             sender_deleted_at := none, created_at := 0 },
      by simp, rfl, rfl⟩

/-- Witness for C9 at seen times 0 and 5 with the worker run at 20. -/
theorem seen_based_expiry_schedule_witness :
    ((0 : Int) + 15 ≤ 20 ∧ (5 : Int) + 15 ≤ 20) ∧ seen_expiry_claim 0 5 20 :=
  ⟨by decide, seen_based_expiry_schedule 0 5 20 (by decide) (by decide)⟩

/-- Witness for C10 on the concrete scenario database. -/
theorem message_seen_idempotent_witness :
    (¬ (1 : Nat) = 2) ∧
    (handle_message_seen (handle_message_seen db9 0 2 (some 10) (some 7) 50).1
      4 2 (some 10) (some 7) 60).1 =
    (handle_message_seen db9 0 2 (some 10) (some 7) 50).1 :=
  ⟨by decide, message_seen_idempotent db9 0 4 2 10 7 50 60
    { id := 10, conversation_id := 7, sender_id := 1, ciphertext := [1],
      iv := [2], group_epoch := none, expires_after_seen_sec := some 15,
      sender_delete_after_seen_at := none, sender_deleted_at := none, created_at := 0 }
    (by decide) (by decide) (by decide) (by decide) (by decide)⟩

/-! ## C1: first-contact end-to-end send -/

theorem sub_conns_map (m : WebSocketManager) (uid cid : Nat) :
    (m.subscribe_user_connections_to_conversation uid cid).connections =
      m.connections.map (fun p => (p.1, sub_user_update uid cid p.2)) := by
  unfold WebSocketManager.subscribe_user_connections_to_conversation sub_user_update
  simp only []
  apply List.map_congr_left
  intro p _
  by_cases h : p.2.user_id = uid <;> simp [h]

theorem aget_sub_conns (m : WebSocketManager) (uid cid ws : Nat) :
    aget (m.subscribe_user_connections_to_conversation uid cid).connections ws =
      (aget m.connections ws).map (sub_user_update uid cid) := by
  rw [sub_conns_map]
  exact aget_map_adjust (fun _ v => sub_user_update uid cid v) m.connections ws

theorem sub_update_user_id (uid cid : Nat) (c : Connection) :
    (sub_user_update uid cid c).user_id = c.user_id := by
  unfold sub_user_update
  by_cases h : c.user_id = uid <;> simp [h]

theorem sub_update_self {uid : Nat} (cid : Nat) {c : Connection}
    (h : c.user_id = uid) :
    cid ∈ (sub_user_update uid cid c).subscribed_conversations := by
  unfold sub_user_update
  rw [if_pos h]
  exact mem_setAdd.mpr (Or.inl rfl)

theorem sub_update_mono {cid : Nat} (uid : Nat) {c : Connection}
    (h : cid ∈ c.subscribed_conversations) :
    cid ∈ (sub_user_update uid cid c).subscribed_conversations := by
  unfold sub_user_update
  by_cases h1 : c.user_id = uid
  · rw [if_pos h1]
    exact mem_setAdd.mpr (Or.inr h)
  · rw [if_neg h1]
    exact h

theorem handle_message_first_contact (db : DB) (m : WebSocketManager)
    (ws A B cid cmid : Nat) (cb ivb : List Nat) (now : Int)
    (hAB : B ≠ A)
    (hrate : (m.allow_incoming_message ws MAX_WS_MESSAGES_PER_WINDOW
      WS_RATE_WINDOW_SECONDS now).1 = true)
    (hcb : cb.length ≤ MAX_MESSAGE_CIPHERTEXT_BYTES)
    (hiv : ivb.length = IV_BYTES)
    (hconv : aget db.conversations cid = none)
    (hpart : ∀ u, (cid, u) ∉ db.participants) :
    handle_message db m ws A (first_contact_frame cid B cmid cb ivb) now =
    ({ conversations := aset db.conversations cid .direct,
       participants := (cid, B) :: (cid, A) :: db.participants,
       groups := db.groups,
       group_members := db.group_members,
       messages := db.messages ++
         [{ id := db.next_message_id, conversation_id := cid, sender_id := A,
            ciphertext := cb, iv := ivb, group_epoch := none,
            expires_after_seen_sec := none, sender_delete_after_seen_at := none,
            sender_deleted_at := none, created_at := now }],
       message_user_state := db.message_user_state ++
         [{ message_id := db.next_message_id, user_id := B, is_sender := false,
            seen_at := none, delete_after_seen_at := none, deleted_at := none },
          { message_id := db.next_message_id, user_id := A, is_sender := true,
            seen_at := none, delete_after_seen_at := none, deleted_at := none }],
       next_message_id := db.next_message_id + 1 },
     ((m.allow_incoming_message ws MAX_WS_MESSAGES_PER_WINDOW
        WS_RATE_WINDOW_SECONDS now).2.subscribe_user_connections_to_conversation
        A cid).subscribe_user_connections_to_conversation B cid,
     [Event.broadcast cid (.message db.next_message_id cid A (some cmid) none none
        cb ivb now),
      Event.personal ws (.messageSent db.next_message_id cid cmid now)]) := by
  have hsA : setAdd db.participants (cid, A) = (cid, A) :: db.participants := by
    unfold setAdd
    rw [if_neg (hpart A)]
  have hsB : setAdd ((cid, A) :: db.participants) (cid, B) =
      (cid, B) :: (cid, A) :: db.participants := by
    unfold setAdd
    rw [if_neg (by
      intro hmem
      rcases List.mem_cons.mp hmem with h | h
      · exact hAB (by simpa using h)
      · exact hpart B h)]
  have hdb1 : auto_create_conversation db cid A B =
      { db with
        conversations := aset db.conversations cid .direct,
        participants := (cid, B) :: (cid, A) :: db.participants } := by
    unfold auto_create_conversation
    rw [hconv]
    simp only [Option.isSome_none, Bool.false_eq_true, if_false]
    rw [hsA, hsB]
  have hcheck : group_epoch_check (auto_create_conversation db cid A B) cid none =
      some none := by
    unfold group_epoch_check
    rw [hdb1]
    simp only []
    rw [if_neg (by rw [aget_aset_self]; simp)]
  have hnil : db.participants.filter (fun p => decide (p.1 = cid)) = [] := by
    rw [List.filter_eq_nil]
    intro p hp
    simp only [decide_eq_true_eq]
    intro hcid
    apply hpart p.2
    have hedge : p = (cid, p.2) := by
      obtain ⟨p1, p2⟩ := p
      simp only at hcid
      rw [hcid]
    rw [hedge] at hp
    exact hp
  have hfilter : (((cid, B) :: (cid, A) :: db.participants).filter
      (fun p => decide (p.1 = cid))) = [(cid, B), (cid, A)] := by
    simp only [List.filter_cons, decide_eq_true_eq, if_true, hnil]
  unfold handle_message first_contact_frame
  simp only [hrate]
  rw [if_neg (by simp)]
  rw [if_neg (by simp)]
  rw [if_neg (by simp)]
  rw [if_neg (by omega)]
  rw [if_neg (fun h => h hiv)]
  rw [if_neg (by simp)]
  rw [if_neg (hpart A)]
  simp only [Option.elim]
  rw [hcheck]
  simp only []
  rw [hdb1]
  simp only []
  rw [hfilter]
  simp only [List.map_cons, List.map_nil]
  rw [List.dedup_cons_of_not_mem (by simp [hAB]), List.dedup_cons_of_not_mem (by simp),
    List.dedup_nil]
  simp only [List.map_cons, List.map_nil, decide_True]
  rw [decide_eq_false hAB]

/-- C1: an authenticated first-contact `message` frame with recipient `B`, a
client message id and valid payload auto-creates the direct conversation with
exactly sender and recipient as participants, appends the message row,
subscribes every registered socket of either user to the conversation, and
emits exactly one broadcast of the envelope followed by the `message_sent` ack
carrying the client message id and the new message id. -/
theorem first_contact_send_end_to_end (db : DB) (m : WebSocketManager)
    (ws A B cid cmid : Nat) (cb ivb : List Nat) (now : Int)
    (hAB : B ≠ A)
    (hrate : (m.allow_incoming_message ws MAX_WS_MESSAGES_PER_WINDOW
      WS_RATE_WINDOW_SECONDS now).1 = true)
    (hcb : cb.length ≤ MAX_MESSAGE_CIPHERTEXT_BYTES)
    (hiv : ivb.length = IV_BYTES)
    (hconv : aget db.conversations cid = none)
    (hpart : ∀ u, (cid, u) ∉ db.participants) :
    first_contact_claim db m ws A B cid cmid cb ivb now := by
  unfold first_contact_claim
  rw [handle_message_first_contact db m ws A B cid cmid cb ivb now hAB hrate hcb hiv
    hconv hpart]
  simp only []
  refine ⟨aget_aset_self _ _ _, ?_, trivial, ?_, trivial⟩
  · intro u
    constructor
    · intro h
      rcases List.mem_cons.mp h with h | h
      · exact Or.inr (by simpa using h)
      · rcases List.mem_cons.mp h with h | h
        · exact Or.inl (by simpa using h)
        · exact absurd h (hpart u)
    · rintro (rfl | rfl)
      · exact List.mem_cons_of_mem _ (List.mem_cons_self _ _)
      · exact List.mem_cons_self _ _
  · intro ws2 c hget hc
    unfold WebSocketManager.is_subscribed_to_conversation
    rw [aget_sub_conns, aget_sub_conns] at hget
    rw [aget_sub_conns, aget_sub_conns]
    cases h0 : aget (m.allow_incoming_message ws MAX_WS_MESSAGES_PER_WINDOW
        WS_RATE_WINDOW_SECONDS now).2.connections ws2 with
    | none =>
        rw [h0] at hget
        simp at hget
    | some c0 =>
        rw [h0] at hget
        simp only [Option.map_some'] at hget ⊢
        have hc0 : c = sub_user_update B cid (sub_user_update A cid c0) := by
          injection hget with h
          exact h.symm
        rcases hc with hA | hB
        · have h1 : c0.user_id = A := by
            rw [hc0, sub_update_user_id, sub_update_user_id] at hA
            exact hA
          exact decide_eq_true (sub_update_mono B (sub_update_self cid h1))
        · have h1 : c0.user_id = B := by
            rw [hc0, sub_update_user_id, sub_update_user_id] at hB
            exact hB
          exact decide_eq_true (sub_update_self cid (by
            rw [sub_update_user_id]
            exact h1))

theorem first_contact_send_witness :
    ((2 : Nat) ≠ 1 ∧
      (first_contact_registry.allow_incoming_message 5 MAX_WS_MESSAGES_PER_WINDOW
        WS_RATE_WINDOW_SECONDS 0).1 = true) ∧
    first_contact_claim first_contact_db first_contact_registry 5 1 2 9 4 [7]
      (List.replicate 12 0) 0 :=
  ⟨⟨by decide, by decide⟩,
    first_contact_send_end_to_end first_contact_db first_contact_registry 5 1 2 9 4 [7]
      (List.replicate 12 0) 0 (by decide) (by decide) (by decide) (by decide) (by decide)
      (fun u => by simp [first_contact_db])⟩


end Hush
